import Mathlib

/-!
Verification development for the video-transcriber pipeline
(`src/src-tauri/src/lib.rs`).

The Rust source is shallowly embedded as executable Lean definitions:

* `VideoRecord` / `Vault` mirror the `serde` structs (a `HashMap` is
  modelled as an association list with unique keys, insertion replacing
  the first matching key, as `HashMap::insert` does).
* The filesystem is an explicit `FS` value: the vault store file contents
  (as structured lines) and per-directory listings.  Directory creation
  and file writes are modelled as total operations (disk failures are
  environment behaviour, not program logic).
* External processes (`yt-dlp`, `whisper`) and the HTTP summarization
  call are oracles: their outcomes are data supplied in a `PipelineEnv`,
  and the embedded adapters branch on those outcomes exactly as the
  source does.
* Timestamps come from an oracle `ts : Nat → String`, indexed by the
  order of `get_current_timestamp` calls in the source.
-/

set_option maxRecDepth 100000

namespace VideoTranscriber

/-- Mirror of the Rust `VideoRecord` struct (lib.rs lines 8-22),
field for field, with `Option` for the optional fields. -/
structure VideoRecord where
  id : String
  url : String
  title : Option String
  downloaded : Bool
  transcribed : Bool
  summarized : Bool
  audio_file : Option String
  transcript_file : Option String
  transcript_content : Option String
  summary_content : Option String
  created_at : String
  updated_at : String
deriving DecidableEq, Repr

/-- The Rust `Vault` holds `videos: HashMap<String, VideoRecord>`; it is
modelled as an association list with unique keys. -/
abbrev Vault := List (String × VideoRecord)

/-- Association-list lookup (model of `HashMap::get`). -/
def alistLookup {β : Type} (l : List (String × β)) (k : String) : Option β :=
  match l with
  | [] => none
  | (k2, v) :: t => if k2 = k then some v else alistLookup t k

/-- Association-list insert-or-replace (model of `HashMap::insert`). -/
def alistInsert {β : Type} (l : List (String × β)) (k : String) (v : β) :
    List (String × β) :=
  match l with
  | [] => [(k, v)]
  | (k2, w) :: t => if k2 = k then (k, v) :: t else (k2, w) :: alistInsert t k v

theorem alistLookup_insert {β : Type} (l : List (String × β)) (k : String) (v : β) :
    alistLookup (alistInsert l k v) k = some v := by
  induction l with
  | nil => simp [alistInsert, alistLookup]
  | cons p t ih =>
    obtain ⟨k2, w⟩ := p
    by_cases h : k2 = k
    · simp [alistInsert, alistLookup, h]
    · simp [alistInsert, alistLookup, h, ih]

/-! ## The persisted store file

The source serializes the `Vault` with the external `toml` crate
(`toml::to_string_pretty` in `save_vault`, `toml::from_str` in
`load_vault`).  Modelled from the spec: the store file is a
"structured, human-inspectable text format ... keyed by item id, each
item embedding all Item Record fields"; we represent the file at the
granularity of its structured lines — one `[videos.<id>]` table header
per record followed by one `key = value` line per present field, in
struct declaration order, absent `Option` fields omitted, exactly as
the TOML serialization of the Rust structs lays them out. -/
inductive TomlLine where
  | header (table : String) (key : String)
  | strField (name : String) (value : String)
  | boolField (name : String) (value : Bool)
deriving DecidableEq, Repr

/-- Emit a `key = value` line for a present optional string field,
nothing for an absent one (the TOML serializer skips `None`). -/
def optStrField (name : String) : Option String → List TomlLine
  | none => []
  | some v => [.strField name v]

/-- The field lines of one serialized record, in struct order. -/
def recordFields (r : VideoRecord) : List TomlLine :=
  [.strField "id" r.id, .strField "url" r.url]
  ++ optStrField "title" r.title
  ++ [.boolField "downloaded" r.downloaded,
      .boolField "transcribed" r.transcribed,
      .boolField "summarized" r.summarized]
  ++ optStrField "audio_file" r.audio_file
  ++ optStrField "transcript_file" r.transcript_file
  ++ optStrField "transcript_content" r.transcript_content
  ++ optStrField "summary_content" r.summary_content
  ++ [.strField "created_at" r.created_at, .strField "updated_at" r.updated_at]

/-- One serialized record: its `[videos.<key>]` header then its fields. -/
def encodeRecord (key : String) (r : VideoRecord) : List TomlLine :=
  .header "videos" key :: recordFields r

/-- The serialized vault: the records one after the other. -/
def encodeVault : Vault → List TomlLine
  | [] => []
  | (k, r) :: t => encodeRecord k r ++ encodeVault t

/-- Parse a mandatory string field. -/
def takeStr (name : String) : List TomlLine → Except String (String × List TomlLine)
  | .strField n v :: rest =>
    if n = name then .ok (v, rest) else .error ("missing key " ++ name)
  | _ => .error ("missing key " ++ name)

/-- Parse a mandatory boolean field. -/
def takeBool (name : String) : List TomlLine → Except String (Bool × List TomlLine)
  | .boolField n v :: rest =>
    if n = name then .ok (v, rest) else .error ("missing key " ++ name)
  | _ => .error ("missing key " ++ name)

/-- Parse an optional string field: consume it if the next line bears
this name, leave the input untouched otherwise. -/
def takeOptStr (name : String) (ls : List TomlLine) : Option String × List TomlLine :=
  match ls with
  | .strField n v :: rest => if n = name then (some v, rest) else (none, ls)
  | _ => (none, ls)

/-- Parse the fields of one record, returning the record and the
unconsumed remainder of the file. -/
def decodeFields (ls0 : List TomlLine) : Except String (VideoRecord × List TomlLine) := do
  let (id, ls1) ← takeStr "id" ls0
  let (url, ls2) ← takeStr "url" ls1
  let (title, ls3) := takeOptStr "title" ls2
  let (downloaded, ls4) ← takeBool "downloaded" ls3
  let (transcribed, ls5) ← takeBool "transcribed" ls4
  let (summarized, ls6) ← takeBool "summarized" ls5
  let (audio_file, ls7) := takeOptStr "audio_file" ls6
  let (transcript_file, ls8) := takeOptStr "transcript_file" ls7
  let (transcript_content, ls9) := takeOptStr "transcript_content" ls8
  let (summary_content, ls10) := takeOptStr "summary_content" ls9
  let (created_at, ls11) ← takeStr "created_at" ls10
  let (updated_at, ls12) ← takeStr "updated_at" ls11
  pure (⟨id, url, title, downloaded, transcribed, summarized, audio_file,
         transcript_file, transcript_content, summary_content,
         created_at, updated_at⟩, ls12)

/-- Parse the whole store file (fuel-indexed loop; the fuel only bounds
the number of records, one unit per table header). -/
def decodeVaultLoop : Nat → List TomlLine → Except String Vault
  | _, [] => .ok []
  | 0, _ :: _ => .error "store too large"
  | fuel + 1, .header t k :: rest =>
    if t = "videos" then
      match decodeFields rest with
      | .error e => .error e
      | .ok (r, rest2) =>
        match decodeVaultLoop fuel rest2 with
        | .error e => .error e
        | .ok v => .ok ((k, r) :: v)
    else .error "unexpected table"
  | _ + 1, .strField _ _ :: _ => .error "key outside table"
  | _ + 1, .boolField _ _ :: _ => .error "key outside table"

/-- Parse a store file into a vault. -/
def decodeVault (ls : List TomlLine) : Except String Vault :=
  decodeVaultLoop (ls.length + 1) ls

theorem decodeFields_encode (r : VideoRecord) (rest : List TomlLine) :
    decodeFields (recordFields r ++ rest) = .ok (r, rest) := by
  obtain ⟨i, u, t, d, tr, su, af, tf, tc, sc, ca, ua⟩ := r
  cases t <;> cases af <;> cases tf <;> cases tc <;> cases sc <;> rfl

theorem encodeVault_cons (k : String) (r : VideoRecord) (t : Vault) :
    encodeVault ((k, r) :: t) = .header "videos" k :: (recordFields r ++ encodeVault t) := by
  simp [encodeVault, encodeRecord]

theorem decodeVaultLoop_encode (v : Vault) :
    ∀ fuel : Nat, v.length < fuel → decodeVaultLoop fuel (encodeVault v) = .ok v := by
  induction v with
  | nil => intro fuel _; cases fuel <;> simp [encodeVault, decodeVaultLoop]
  | cons p t ih =>
    intro fuel hf
    obtain ⟨k, r⟩ := p
    match fuel, hf with
    | fuel + 1, hf =>
      rw [encodeVault_cons]
      simp [decodeVaultLoop, decodeFields_encode,
        ih fuel (by simpa using Nat.lt_of_succ_lt_succ hf)]

theorem length_le_encodeVault (v : Vault) : v.length ≤ (encodeVault v).length := by
  induction v with
  | nil => simp [encodeVault]
  | cons p t ih =>
    obtain ⟨k, r⟩ := p
    rw [encodeVault_cons]
    simp only [List.length_cons, List.length_append]
    omega

/-- Round trip at the serialization layer. -/
theorem decodeVault_encodeVault (v : Vault) : decodeVault (encodeVault v) = .ok v := by
  have h := length_le_encodeVault v
  exact decodeVaultLoop_encode v ((encodeVault v).length + 1) (by omega)

/-! ## String utilities

The source uses Rust string operations (`split`, `split_whitespace`,
`trim`, `to_lowercase`, path component handling).  They are embedded as
structural functions over the character list of a `String`, which the
kernel can evaluate. -/

/-- Split on a separator character, keeping empty pieces, as Rust
`str::split(char)` does. -/
def splitCharAux (sep : Char) : List Char → List Char → List (List Char)
  | [], acc => [acc.reverse]
  | c :: cs, acc =>
    if c = sep then acc.reverse :: splitCharAux sep cs []
    else splitCharAux sep cs (c :: acc)

/-- String-level split on one character. -/
def splitChar (sep : Char) (s : String) : List String :=
  (splitCharAux sep s.data []).map String.mk

/-- Split on whitespace runs, dropping empty pieces, as Rust
`str::split_whitespace` does (ASCII whitespace model). -/
def splitWsAux : List Char → List Char → List (List Char)
  | [], [] => []
  | [], acc => [acc.reverse]
  | c :: cs, acc =>
    if c.isWhitespace then
      match acc with
      | [] => splitWsAux cs []
      | _ :: _ => acc.reverse :: splitWsAux cs []
    else splitWsAux cs (c :: acc)

/-- String-level whitespace split. -/
def splitWs (s : String) : List String := (splitWsAux s.data []).map String.mk

/-- Rust `str::trim` (ASCII whitespace model). -/
def strTrim (s : String) : String :=
  String.mk (((s.data.dropWhile Char.isWhitespace).reverse.dropWhile
    Char.isWhitespace).reverse)

/-- Rust `str::to_lowercase` (ASCII model, as used on file extensions). -/
def strToLower (s : String) : String := String.mk (s.data.map Char.toLower)

/-- Join a list of strings with a separator, as Rust `join`. -/
def joinSep (sep : String) : List String → String
  | [] => ""
  | [s] => s
  | s :: t => s ++ sep ++ joinSep sep t

/-- Rust `PathBuf::join` with a relative component. -/
def pathJoin (dir name : String) : String := dir ++ "/" ++ name

/-- Last path component (Rust `Path::file_name` for our joined paths). -/
def fileName (p : String) : String := (splitChar '/' p).getLastD ""

/-- Parent directory (Rust `Path::parent` for our joined paths). -/
def pathParent (p : String) : String := joinSep "/" ((splitChar '/' p).dropLast)

/-- Rust `Path::extension` on a file name: the part after the final
dot, none when there is no dot or the only dot is the leading one. -/
def fileExtension (name : String) : Option String :=
  match splitChar '.' name with
  | [] => none
  | [_] => none
  | first :: rest =>
    if first = "" && rest.length == 1 then none else rest.getLast?

/-- Rust `Path::file_stem` on a file name. -/
def fileStem (name : String) : String :=
  match fileExtension name with
  | none => name
  | some ext => String.mk (name.data.take (name.data.length - (ext.length + 1)))

/-! ## Filesystem model -/

deriving instance DecidableEq for Except

/-- One file inside an item directory: its name and the outcome of
reading it as text (`fs::read_to_string`). -/
structure DirEntry where
  name : String
  read : Except String String
deriving DecidableEq, Repr

/-- Explicit filesystem state: vault store files by path (the structured
lines of §above), and directory listings by path, in iteration order. -/
structure FS where
  vaultFiles : List (String × List TomlLine)
  dirs : List (String × List DirEntry)
deriving DecidableEq, Repr

/-- Model of `fs::create_dir_all`: a no-op when the directory exists. -/
def FS.createDir (fs : FS) (path : String) : FS :=
  if (alistLookup fs.dirs path).isSome then fs
  else { fs with dirs := alistInsert fs.dirs path [] }

/-- Write (create or overwrite) a vault store file. -/
def FS.writeVaultFile (fs : FS) (path : String) (doc : List TomlLine) : FS :=
  { fs with vaultFiles := alistInsert fs.vaultFiles path doc }

/-- Append entries to a directory listing (files produced by an
external tool run). -/
def FS.addEntries (fs : FS) (dir : String) (es : List DirEntry) : FS :=
  { fs with dirs := alistInsert fs.dirs dir ((alistLookup fs.dirs dir).getD [] ++ es) }

theorem FS.createDir_vaultFiles (fs : FS) (p : String) :
    (fs.createDir p).vaultFiles = fs.vaultFiles := by
  unfold FS.createDir; split <;> rfl

theorem FS.addEntries_vaultFiles (fs : FS) (d : String) (es : List DirEntry) :
    (fs.addEntries d es).vaultFiles = fs.vaultFiles := rfl

/-! ## Path helpers and the record store (lib.rs lines 41-94) -/

/-- `expand_tilde_path` (lib.rs lines 41-49): expand a leading `~/`
using the HOME variable, pass anything else through. -/
def expand_tilde_path (path : String) (home : Option String) : String :=
  match path.data with
  | '~' :: '/' :: rest =>
    match home with
    | some h => h ++ "/" ++ String.mk rest
    | none => path
  | _ => path

/-- `get_vault_path` (lib.rs lines 51-53). -/
def get_vault_path (base_path : String) : String :=
  pathJoin base_path "video-transcriber-vault"

/-- `get_vault_config_path` (lib.rs lines 55-57). -/
def get_vault_config_path (vault_path : String) : String :=
  pathJoin vault_path "vault.toml"

/-- `get_video_dir_path` (lib.rs lines 59-61). -/
def get_video_dir_path (vault_path : String) (video_id : String) : String :=
  pathJoin vault_path video_id

/-- `load_vault` (lib.rs lines 63-82): an absent store file is an empty
vault; a present one is parsed, a parse failure is surfaced. -/
def load_vault (fs : FS) (vault_path : String) : Except String Vault :=
  match alistLookup fs.vaultFiles (get_vault_config_path vault_path) with
  | none => .ok []
  | some doc =>
    match decodeVault doc with
    | .ok vault => .ok vault
    | .error e => .error ("解析vault配置失败: " ++ e)

/-- `save_vault` (lib.rs lines 84-94): create the vault directory, then
serialize the whole vault over the store file. -/
def save_vault (fs : FS) (vault_path : String) (vault : Vault) : FS :=
  (fs.createDir vault_path).writeVaultFile (get_vault_config_path vault_path)
    (encodeVault vault)

/-- The record stored on disk for a given id, if the store file loads. -/
def storedRecord (fs : FS) (vault_path : String) (id : String) : Option VideoRecord :=
  match load_vault fs vault_path with
  | .ok v => alistLookup v id
  | .error _ => none

theorem load_save_vault (fs : FS) (vault_path : String) (vault : Vault) :
    load_vault (save_vault fs vault_path vault) vault_path = .ok vault := by
  simp [load_vault, save_vault, FS.writeVaultFile, alistLookup_insert,
    decodeVault_encodeVault]

theorem storedRecord_save (fs : FS) (vault_path : String) (vault : Vault)
    (id : String) :
    storedRecord (save_vault fs vault_path vault) vault_path id =
      alistLookup vault id := by
  simp [storedRecord, load_save_vault]

theorem storedRecord_congr (fs fs2 : FS) (vault_path id : String)
    (h : fs.vaultFiles = fs2.vaultFiles) :
    storedRecord fs vault_path id = storedRecord fs2 vault_path id := by
  simp [storedRecord, load_vault, h]

/-! ## Searching for produced artifacts (lib.rs lines 497-544) -/

/-- The recognized audio extensions (lib.rs line 502). -/
def audio_extensions : List String := ["wav", "mp3", "m4a", "aac", "flac", "ogg"]

/-- Whether a file name bears a recognized audio extension (the
extension is lowercased before comparison, as in the source). -/
def hasAudioExt (name : String) : Bool :=
  match fileExtension name with
  | some ext => audio_extensions.contains (strToLower ext)
  | none => false

/-- `find_audio_file` (lib.rs lines 497-518): first file in directory
iteration order with a recognized audio extension; none when the
directory does not exist. -/
def find_audio_file (dir : String) (fs : FS) : Option String :=
  match alistLookup fs.dirs dir with
  | none => none
  | some entries =>
    (entries.find? fun e => hasAudioExt e.name).map fun e => pathJoin dir e.name

/-- `find_transcript_file` (lib.rs lines 520-544): prefer
`<stem>.txt` beside the audio file, else the first `.txt` file in the
directory (exact-case extension comparison, as in the source). -/
def find_transcript_file (audio_file_path : String) (fs : FS) : Option String :=
  let parent := pathParent audio_file_path
  let stem := fileStem (fileName audio_file_path)
  let tname := stem ++ ".txt"
  let entries := (alistLookup fs.dirs parent).getD []
  if entries.any fun e => e.name = tname then some (pathJoin parent tname)
  else
    match entries.find? fun e => fileExtension e.name = some "txt" with
    | some e => some (pathJoin parent e.name)
    | none => none

/-- Read a file's text by full path, via its directory listing (model
of `fs::read_to_string` on our constructed paths). -/
def readFile (fs : FS) (path : String) : Except String String :=
  match ((alistLookup fs.dirs (pathParent path)).getD []).find?
      (fun e => e.name = fileName path) with
  | some e => e.read
  | none => .error "No such file or directory"

/-! ## Identity derivation (lib.rs lines 34-39)

`generate_video_id` feeds the URL's UTF-8 bytes to the `sha2` crate's
SHA-256, formats the digest as lowercase hex and keeps the first 16
characters.  SHA-256 itself is external library code; it is embedded
here from the FIPS 180-4 definition over `Nat` with explicit `% 2^32`
wrap-around, and validated below against the standard test vectors. -/

/-- Wrap to a 32-bit word. -/
def w32 (n : Nat) : Nat := n % 4294967296

/-- Wrap to a byte. -/
def w8 (n : Nat) : Nat := n % 256

/-- 32-bit right rotation. -/
def rotr32 (k x : Nat) : Nat := w32 ((x >>> k) ||| (x <<< (32 - k)))

/-- Three-way xor. -/
def xor3 (a b c : Nat) : Nat := (a ^^^ b) ^^^ c

/-- FIPS 180-4 big sigma 0. -/
def bigSigma0 (x : Nat) : Nat := xor3 (rotr32 2 x) (rotr32 13 x) (rotr32 22 x)

/-- FIPS 180-4 big sigma 1. -/
def bigSigma1 (x : Nat) : Nat := xor3 (rotr32 6 x) (rotr32 11 x) (rotr32 25 x)

/-- FIPS 180-4 small sigma 0. -/
def smallSigma0 (x : Nat) : Nat := xor3 (rotr32 7 x) (rotr32 18 x) (x >>> 3)

/-- FIPS 180-4 small sigma 1. -/
def smallSigma1 (x : Nat) : Nat := xor3 (rotr32 17 x) (rotr32 19 x) (x >>> 10)

/-- FIPS 180-4 choice function. -/
def chFn (e f g : Nat) : Nat := (e &&& f) ^^^ ((e ^^^ 0xFFFFFFFF) &&& g)

/-- FIPS 180-4 majority function. -/
def majFn (a b c : Nat) : Nat := xor3 (a &&& b) (a &&& c) (b &&& c)

/-- Eight 32-bit words: the hash state, also the round working
variables. -/
structure Hash8 where
  a : Nat
  b : Nat
  c : Nat
  d : Nat
  e : Nat
  f : Nat
  g : Nat
  h : Nat
deriving DecidableEq, Repr

/-- SHA-256 round constants, written in decimal. -/
def sha256K : List Nat :=
  [1116352408, 1899447441, 3049323471, 3921009573, 961987163,
   1508970993, 2453635748, 2870763221, 3624381080, 310598401,
   607225278, 1426881987, 1925078388, 2162078206, 2614888103,
   3248222580, 3835390401, 4022224774, 264347078, 604807628,
   770255983, 1249150122, 1555081692, 1996064986, 2554220882,
   2821834349, 2952996808, 3210313671, 3336571891, 3584528711,
   113926993, 338241895, 666307205, 773529912, 1294757372,
   1396182291, 1695183700, 1986661051, 2177026350, 2456956037,
   2730485921, 2820302411, 3259730800, 3345764771, 3516065817,
   3600352804, 4094571909, 275423344, 430227734, 506948616,
   659060556, 883997877, 958139571, 1322822218, 1537002063,
   1747873779, 1955562222, 2024104815, 2227730452, 2361852424,
   2428436474, 2756734187, 3204031479, 3329325298]

/-- SHA-256 initial hash value, written in decimal. -/
def sha256H0 : Hash8 :=
  ⟨1779033703, 3144134277, 1013904242, 2773480762,
   1359893119, 2600822924, 528734635, 1541459225⟩

/-- Big-endian 64-bit length encoding. -/
def be64 (n : Nat) : List Nat :=
  [w8 (n >>> 56), w8 (n >>> 48), w8 (n >>> 40), w8 (n >>> 32),
   w8 (n >>> 24), w8 (n >>> 16), w8 (n >>> 8), w8 n]

/-- Big-endian 32-bit word encoding. -/
def be32 (n : Nat) : List Nat := [w8 (n >>> 24), w8 (n >>> 16), w8 (n >>> 8), w8 n]

/-- SHA-256 message padding. -/
def sha256Pad (msg : List Nat) : List Nat :=
  let len := msg.length
  let k := (119 - (len % 64)) % 64
  msg ++ 0x80 :: (List.replicate k 0 ++ be64 (len * 8))

/-- Assemble a 32-bit word from four bytes. -/
def bytesToWord (b0 b1 b2 b3 : Nat) : Nat :=
  (b0 <<< 24) + (b1 <<< 16) + (b2 <<< 8) + b3

/-- The sixteen words of one 64-byte chunk. -/
def chunkWords (chunk : List Nat) : List Nat :=
  (List.range 16).map fun i =>
    bytesToWord (chunk.getD (4 * i) 0) (chunk.getD (4 * i + 1) 0)
      (chunk.getD (4 * i + 2) 0) (chunk.getD (4 * i + 3) 0)

/-- The next message-schedule word from the words so far. -/
def nextW (acc : List Nat) : Nat :=
  let n := acc.length
  w32 (smallSigma1 (acc.getD (n - 2) 0) + acc.getD (n - 7) 0 +
    smallSigma0 (acc.getD (n - 15) 0) + acc.getD (n - 16) 0)

/-- Extend the sixteen chunk words to the 64-entry message schedule. -/
def extendSchedule (ws : List Nat) : List Nat :=
  (List.range 48).foldl (fun acc _ => acc ++ [nextW acc]) ws

/-- One compression round. -/
def roundStep (st : Hash8) (kw : Nat × Nat) : Hash8 :=
  let t1 := w32 (st.h + bigSigma1 st.e + chFn st.e st.f st.g + kw.1 + kw.2)
  let t2 := w32 (bigSigma0 st.a + majFn st.a st.b st.c)
  ⟨w32 (t1 + t2), st.a, st.b, st.c, w32 (st.d + t1), st.e, st.f, st.g⟩

/-- Process one 64-byte chunk. -/
def processBlock (st : Hash8) (chunk : List Nat) : Hash8 :=
  let ws := extendSchedule (chunkWords chunk)
  let o := (sha256K.zip ws).foldl roundStep st
  ⟨w32 (st.a + o.a), w32 (st.b + o.b), w32 (st.c + o.c), w32 (st.d + o.d),
   w32 (st.e + o.e), w32 (st.f + o.f), w32 (st.g + o.g), w32 (st.h + o.h)⟩

/-- Cut a byte list into 64-byte chunks (fuel-indexed, one unit of fuel
per chunk, so the list length is always enough fuel). -/
def chunksGo : Nat → List Nat → List (List Nat)
  | 0, _ => []
  | _, [] => []
  | fuel + 1, x :: xs => (x :: xs).take 64 :: chunksGo fuel ((x :: xs).drop 64)

/-- Cut a byte list into 64-byte chunks. -/
def chunks64 (l : List Nat) : List (List Nat) := chunksGo l.length l

/-- The SHA-256 digest state of a byte message. -/
def sha256Digest (msg : List Nat) : Hash8 :=
  (chunks64 (sha256Pad msg)).foldl processBlock sha256H0

/-- The 32 digest bytes. -/
def digestBytes (st : Hash8) : List Nat :=
  be32 st.a ++ be32 st.b ++ be32 st.c ++ be32 st.d ++
  be32 st.e ++ be32 st.f ++ be32 st.g ++ be32 st.h

/-- One lowercase hex digit. -/
def hexDigitChar (n : Nat) : Char :=
  if n < 10 then Char.ofNat (48 + n) else Char.ofNat (87 + n)

/-- Two lowercase hex digits of a byte, as Rust `format` with `x` on
the digest prints it. -/
def byteHexChars (b : Nat) : List Char := [hexDigitChar (b >>> 4), hexDigitChar (b % 16)]

/-- The 64 lowercase hex characters of the digest. -/
def sha256HexChars (msg : List Nat) : List Char :=
  ((digestBytes (sha256Digest msg)).map byteHexChars).flatten

/-- UTF-8 encoding of one scalar value. -/
def utf8EncodeCharNat (c : Char) : List Nat :=
  let n := c.toNat
  if n < 0x80 then [n]
  else if n < 0x800 then [0xC0 ||| (n >>> 6), 0x80 ||| (n &&& 0x3F)]
  else if n < 0x10000 then
    [0xE0 ||| (n >>> 12), 0x80 ||| ((n >>> 6) &&& 0x3F), 0x80 ||| (n &&& 0x3F)]
  else
    [0xF0 ||| (n >>> 18), 0x80 ||| ((n >>> 12) &&& 0x3F),
     0x80 ||| ((n >>> 6) &&& 0x3F), 0x80 ||| (n &&& 0x3F)]

/-- The UTF-8 bytes of a string (Rust `str::as_bytes`). -/
def utf8Bytes (s : String) : List Nat :=
  s.data.foldr (fun c acc => utf8EncodeCharNat c ++ acc) []

/-- `generate_video_id` (lib.rs lines 34-39): the first 16 lowercase
hex characters of the SHA-256 digest of the URL's bytes. -/
def generate_video_id (url : String) : String :=
  String.mk ((sha256HexChars (utf8Bytes url)).take 16)

/-- Validation of the SHA-256 embedding against the FIPS test vector
for `"abc"`. -/
theorem sha256_vector_abc :
    String.mk (sha256HexChars (utf8Bytes "abc")) =
      "ba7816bf8f01cfea414140de5dae2223b00361a396177a9cb410ff61f20015ad" := by
  decide

/-- Validation of the SHA-256 embedding against the FIPS test vector
for the empty message. -/
theorem sha256_vector_empty :
    String.mk (sha256HexChars (utf8Bytes "")) =
      "e3b0c44298fc1c149afbf4c8996fb92427ae41e4649b934ca495991b7852b855" := by
  decide

/-! ## Summarization (lib.rs lines 368-495) -/

/-- Mirror of the Rust `ApiProvider` enum (lib.rs lines 382-386). -/
inductive ApiProvider where
  | OpenAI
  | DeepSeek
deriving DecidableEq, Repr

/-- `ApiProvider::base_url` (lib.rs lines 389-394). -/
def ApiProvider.base_url : ApiProvider → String
  | .OpenAI => "https://api.openai.com/v1/chat/completions"
  | .DeepSeek => "https://api.deepseek.com/chat/completions"

/-- `ApiProvider::default_model` (lib.rs lines 396-401). -/
def ApiProvider.default_model : ApiProvider → String
  | .OpenAI => "gpt-3.5-turbo"
  | .DeepSeek => "deepseek-chat"

/-- Mirror of the Rust `ChatMessage` struct. -/
structure ChatMessage where
  role : String
  content : String
deriving DecidableEq, Repr

/-- Mirror of the Rust `ChatChoice` struct. -/
structure ChatChoice where
  message : ChatMessage
deriving DecidableEq, Repr

/-- Mirror of the Rust `ChatCompletionResponse` struct. -/
structure ChatCompletionResponse where
  choices : List ChatChoice
deriving DecidableEq, Repr

/-- Outcome of the HTTP POST to the summarization API: either the send
itself fails (network error), or a response arrives with a status and a
body whose JSON decoding succeeds or fails. -/
inductive HttpOutcome where
  | sendErr (e : String)
  | resp (statusSuccess : Bool) (statusText : String)
      (body : Except String ChatCompletionResponse)
deriving DecidableEq, Repr

/-- `generate_simple_summary` (lib.rs lines 473-495): the local
fallback summary — word count, the first three sentence pieces that are
non-empty after trimming, joined, plus a configuration hint. -/
def generate_simple_summary (transcript : String) : String :=
  let words := splitWs transcript
  let total_words := words.length
  if total_words = 0 then "转录内容为空，无法生成总结。"
  else
    let sentences := splitChar '.' transcript
    let summary_sentences :=
      joinSep "。" (((sentences.take 3).filter fun s => !(strTrim s).isEmpty).map strTrim)
    "📊 内容统计：共约" ++ toString total_words ++ "词\n\n📝 内容概要：\n" ++
      (if summary_sentences.isEmpty then "转录内容较短，建议查看完整转录文本"
       else summary_sentences) ++
      "\n\n💡 提示：配置OpenAI API密钥可获得更精准的AI总结"

/-- `summarize_transcript_content` (lib.rs lines 414-471).  No API key:
the local summary.  With a key, the request is sent (its contents do
not influence the control flow modelled here): a network send failure
falls back to the local summary; a non-success status or an unparsable
body or an empty `choices` list is an error; otherwise the first
choice's message content is the summary. -/
def summarize_transcript_content (transcript : String) (api_key : Option String)
    (provider : ApiProvider) (http : HttpOutcome) : Except String String :=
  match api_key with
  | none => .ok (generate_simple_summary transcript)
  | some _ =>
    match http with
    | .sendErr _ => .ok (generate_simple_summary transcript)
    | .resp statusSuccess statusText body =>
      if statusSuccess then
        match body with
        | .ok chat_response =>
          match chat_response.choices.head? with
          | some choice => .ok choice.message.content
          | none => .error "API返回了空的总结结果"
        | .error e => .error ("解析API响应失败: " ++ e)
      else .error ("API请求失败，状态码: " ++ statusText)

/-! ## External process adapters (lib.rs lines 247-366) -/

/-- Outcome of spawning one external command: the spawn itself can fail
(`Err` from `Command::output`), or the process runs to an exit status
with captured stdout and stderr. -/
inductive CmdResult where
  | spawnErr (e : String)
  | ran (statusSuccess : Bool) (stdout : String) (stderr : String)
deriving DecidableEq, Repr

/-- Oracle for the three `yt-dlp` invocations of one download, plus the
files the full run writes into the output directory. -/
structure DownloadEnv where
  versionCheck : CmdResult
  infoCmd : CmdResult
  runCmd : CmdResult
  filesWritten : List DirEntry
deriving DecidableEq, Repr

/-- Render a directory listing roughly as Rust debug-formats a
`Vec<String>` (only used inside an error message). -/
def listingStr (names : List String) : String :=
  "[" ++ joinSep ", " names ++ "]"

/-- `list_directory_contents` (lib.rs lines 323-332). -/
def list_directory_contents (dir : String) (fs : FS) : List String :=
  match alistLookup fs.dirs dir with
  | some entries => entries.map fun e => e.name
  | none => ["无法读取目录"]

/-- `download_video_to_dir` (lib.rs lines 247-321): probe `yt-dlp`,
fetch the title, run the download, then locate the produced audio file;
returns the audio path and title, or the stage's error, together with
the filesystem state (the run's written files land in the output
directory whether or not the exit status was success). -/
def download_video_to_dir (url : String) (output_dir : String) (denv : DownloadEnv)
    (fs : FS) : Except String (String × String) × FS :=
  match denv.versionCheck with
  | .spawnErr _ => (.error "yt-dlp未安装或不在PATH中。请先安装yt-dlp: pip install yt-dlp", fs)
  | .ran false _ _ => (.error "yt-dlp无法正常运行，请检查安装", fs)
  | .ran true _ _ =>
    match denv.infoCmd with
    | .spawnErr e => (.error ("执行yt-dlp失败: " ++ e), fs)
    | .ran false _ stderr => (.error ("无法获取视频信息: " ++ stderr), fs)
    | .ran true stdout _ =>
      let title := strTrim stdout
      match denv.runCmd with
      | .spawnErr e => (.error ("执行 yt-dlp 失败: " ++ e), fs)
      | .ran statusSuccess out err =>
        let fs2 := fs.addEntries output_dir denv.filesWritten
        if statusSuccess then
          match find_audio_file output_dir fs2 with
          | some audio_file => (.ok (audio_file, title), fs2)
          | none =>
            (.error ("下载似乎成功但未找到音频文件。\n目录: " ++ output_dir ++
              "\n目录内容: " ++ listingStr (list_directory_contents output_dir fs2) ++
              "\n\nyt-dlp输出:\nSTDOUT: " ++ strTrim out ++
              "\nSTDERR: " ++ strTrim err), fs2)
        else
          (.error ("yt-dlp下载失败\nSTDOUT: " ++ strTrim out ++
            "\nSTDERR: " ++ strTrim err), fs2)

/-- Oracle for the `whisper` invocation, plus the files it writes
beside the audio file. -/
structure TranscribeEnv where
  whisperCmd : CmdResult
  filesWritten : List DirEntry
deriving DecidableEq, Repr

/-- `transcribe_audio_file` (lib.rs lines 334-366): run `whisper`, then
locate and read the transcript text file, returning its trimmed
contents. -/
def transcribe_audio_file (audio_file_path : String) (tenv : TranscribeEnv)
    (fs : FS) : Except String String × FS :=
  match tenv.whisperCmd with
  | .spawnErr e =>
    (.error ("执行 Whisper 失败: " ++ e ++ ". 请确保已安装 OpenAI Whisper"), fs)
  | .ran statusSuccess _ stderr =>
    let fs2 := fs.addEntries (pathParent audio_file_path) tenv.filesWritten
    if statusSuccess then
      match find_transcript_file audio_file_path fs2 with
      | some transcript_file =>
        match readFile fs2 transcript_file with
        | .ok content => (.ok (strTrim content), fs2)
        | .error e => (.error ("读取转录文件失败: " ++ e), fs2)
      | none => (.error "未找到转录输出文件", fs2)
    else (.error ("Whisper 转录失败: " ++ stderr), fs2)

/-! ## The pipeline orchestrator (lib.rs lines 119-245) -/

/-- Adapter invocation counters for one run (instrumentation used by
the idempotency claims; the source has no such counters, they count the
calls to `download_video_to_dir`, `transcribe_audio_file` and
`summarize_transcript_content`). -/
structure Calls where
  download : Nat
  transcribe : Nat
  summarize : Nat
deriving DecidableEq, Repr

/-- The environment of one pipeline run: HOME, the temp directory
default, the timestamp oracle (indexed by `get_current_timestamp` call
order), and the three adapter oracles. -/
structure PipelineEnv where
  home : Option String
  tempDir : String
  ts : Nat → String
  denv : DownloadEnv
  tenv : TranscribeEnv
  http : HttpOutcome

/-- The in-flight state threaded between the pipeline's stages. -/
structure PState where
  record : VideoRecord
  vault : Vault
  fs : FS
  tsIdx : Nat
  calls : Calls
deriving DecidableEq

/-- What one pipeline run produces: the returned record (the source
returns its JSON rendering) or the surfaced error, the final filesystem
state, and the adapter invocation counts. -/
structure RunOutcome where
  result : Except String VideoRecord
  fs : FS
  calls : Calls
deriving DecidableEq

/-- The vault root computed by the run prologue (lib.rs lines 121-126):
the caller's base path or the temp-dir default, tilde-expanded, then
`get_vault_path`. -/
def vaultPathOf (base_path : Option String) (env : PipelineEnv) : String :=
  get_vault_path (expand_tilde_path (base_path.getD env.tempDir) env.home)

/-- A fresh record (lib.rs lines 135-148): all flags false, no
artifacts, both timestamps the current one. -/
def freshRecord (id url ts : String) : VideoRecord :=
  ⟨id, url, none, false, false, false, none, none, none, none, ts, ts⟩

/-- The repair step (lib.rs lines 156-165): a record marked downloaded
but with no audio path gets the audio file rediscovered from the item
directory; when found, the record is updated and the vault persisted. -/
def stepRepair (env : PipelineEnv) (vault_path video_dir video_id : String)
    (s : PState) : PState :=
  if s.record.downloaded = true ∧ s.record.audio_file = none then
    match find_audio_file video_dir s.fs with
    | some audio_file =>
      let r := { s.record with audio_file := some audio_file,
                               updated_at := env.ts s.tsIdx }
      let v := alistInsert s.vault video_id r
      { record := r, vault := v, fs := save_vault s.fs vault_path v,
        tsIdx := s.tsIdx + 1, calls := s.calls }
    | none => s
  else s

/-- Step 1, download (lib.rs lines 167-187): skipped when already
downloaded; on success the record gains the flag, audio path and title
and the vault is persisted; on failure the run aborts. -/
def stepDownload (env : PipelineEnv) (url vault_path video_dir video_id : String)
    (s : PState) : Except (String × PState) PState :=
  if s.record.downloaded = true then .ok s
  else
    let calls2 : Calls := { s.calls with download := s.calls.download + 1 }
    match download_video_to_dir url video_dir env.denv s.fs with
    | (.ok (audio_file, title), fs2) =>
      let r := { s.record with downloaded := true, audio_file := some audio_file,
                               title := some title, updated_at := env.ts s.tsIdx }
      let v := alistInsert s.vault video_id r
      .ok { record := r, vault := v, fs := save_vault fs2 vault_path v,
            tsIdx := s.tsIdx + 1, calls := calls2 }
    | (.error e, fs2) =>
      .error ("下载失败: " ++ e, { s with fs := fs2, calls := calls2 })

/-- Step 2, transcription (lib.rs lines 189-212): skipped when already
transcribed; aborts without invoking the tool when no audio path is
known; on success the record gains the flag and transcript content and
the vault is persisted; on failure the run aborts. -/
def stepTranscribe (env : PipelineEnv) (vault_path video_id : String)
    (s : PState) : Except (String × PState) PState :=
  if s.record.transcribed = true then .ok s
  else
    match s.record.audio_file with
    | some audio_file =>
      let calls2 : Calls := { s.calls with transcribe := s.calls.transcribe + 1 }
      match transcribe_audio_file audio_file env.tenv s.fs with
      | (.ok transcript_content, fs2) =>
        let r := { s.record with transcribed := true,
                                 transcript_content := some transcript_content,
                                 updated_at := env.ts s.tsIdx }
        let v := alistInsert s.vault video_id r
        .ok { record := r, vault := v, fs := save_vault fs2 vault_path v,
              tsIdx := s.tsIdx + 1, calls := calls2 }
      | (.error e, fs2) =>
        .error ("转录失败: " ++ e, { s with fs := fs2, calls := calls2 })
    | none => .error ("无法转录：未找到音频文件路径", s)

/-- Provider selection (lib.rs lines 218-221): the tag `deepseek`
selects DeepSeek, anything else — including an absent or unrecognized
tag — defaults to OpenAI. -/
def providerOf (api_provider : Option String) : ApiProvider :=
  match api_provider with
  | some "deepseek" => ApiProvider.DeepSeek
  | _ => ApiProvider.OpenAI

/-- Step 3, summarization (lib.rs lines 214-238): runs only when not
yet summarized and a transcript is present; the provider tag selects
DeepSeek, anything else defaults to OpenAI; on success the record gains
the flag and summary and the vault is persisted; on failure the run
aborts. -/
def stepSummarize (env : PipelineEnv) (api_key api_provider : Option String)
    (vault_path video_id : String) (s : PState) : Except (String × PState) PState :=
  if s.record.summarized = true then .ok s
  else
    match s.record.transcript_content with
    | none => .ok s
    | some transcript =>
      let calls2 : Calls := { s.calls with summarize := s.calls.summarize + 1 }
      match summarize_transcript_content transcript api_key (providerOf api_provider)
          env.http with
      | .ok summary_content =>
        let r := { s.record with summarized := true,
                                 summary_content := some summary_content,
                                 updated_at := env.ts s.tsIdx }
        let v := alistInsert s.vault video_id r
        .ok { record := r, vault := v, fs := save_vault s.fs vault_path v,
              tsIdx := s.tsIdx + 1, calls := calls2 }
      | .error e => .error ("总结失败: " ++ e, { s with calls := calls2 })

/-- The run from just before step 3: summarize, then return the final
record (lib.rs lines 214-244). -/
def stagesTail2 (env : PipelineEnv) (api_key api_provider : Option String)
    (vault_path video_id : String) (s2 : PState) : RunOutcome :=
  match stepSummarize env api_key api_provider vault_path video_id s2 with
  | .error (e, s) => ⟨.error e, s.fs, s.calls⟩
  | .ok s3 => ⟨.ok s3.record, s3.fs, s3.calls⟩

/-- The run from just before step 2: transcribe, then the rest
(lib.rs lines 189-244). -/
def stagesTail1 (env : PipelineEnv) (api_key api_provider : Option String)
    (vault_path video_id : String) (s1 : PState) : RunOutcome :=
  match stepTranscribe env vault_path video_id s1 with
  | .error (e, s) => ⟨.error e, s.fs, s.calls⟩
  | .ok s2 => stagesTail2 env api_key api_provider vault_path video_id s2

/-- The three stages in order, after the repair step, with a stage
failure aborting the run (lib.rs lines 154-244). -/
def runStages (env : PipelineEnv) (url : String) (api_key api_provider : Option String)
    (vault_path video_dir video_id : String) (s0 : PState) : RunOutcome :=
  match stepDownload env url vault_path video_dir video_id
      (stepRepair env vault_path video_dir video_id s0) with
  | .error (e, s) => ⟨.error e, s.fs, s.calls⟩
  | .ok s1 => stagesTail1 env api_key api_provider vault_path video_id s1

/-- `process_video_pipeline` (lib.rs lines 119-245): resolve paths,
load the vault, fetch or create the record, ensure the item directory,
then run the stages.  The final JSON rendering of the record is
modelled as the record itself. -/
def process_video_pipeline (url : String) (base_path api_key api_provider : Option String)
    (env : PipelineEnv) (fs0 : FS) : RunOutcome :=
  let vault_path := vaultPathOf base_path env
  let video_id := generate_video_id url
  match load_vault fs0 vault_path with
  | .error e => ⟨.error e, fs0, ⟨0, 0, 0⟩⟩
  | .ok vault =>
    let timestamp := env.ts 0
    let record := (alistLookup vault video_id).getD (freshRecord video_id url timestamp)
    let video_dir := get_video_dir_path vault_path video_id
    let fs1 := fs0.createDir video_dir
    runStages env url api_key api_provider vault_path video_dir video_id
      ⟨record, vault, fs1, 1, ⟨0, 0, 0⟩⟩

/-! ## Per-step lemmas -/

/-- The state carried out of a stage, whether it succeeded or aborted. -/
def postOf : Except (String × PState) PState → PState
  | .ok s => s
  | .error p => p.2

/-- The record as the repair step rewrites it. -/
def repairedRecord (env : PipelineEnv) (s : PState) (p : String) : VideoRecord :=
  { s.record with audio_file := some p, updated_at := env.ts s.tsIdx }

/-- The record as a successful summarize step rewrites it. -/
def summarizedRecord (env : PipelineEnv) (s : PState) (summary : String) : VideoRecord :=
  { s.record with summarized := true, summary_content := some summary,
                  updated_at := env.ts s.tsIdx }

/-- The record as a successful transcribe step rewrites it. -/
def transcribedRecord (env : PipelineEnv) (s : PState) (t : String) : VideoRecord :=
  { s.record with transcribed := true, transcript_content := some t,
                  updated_at := env.ts s.tsIdx }

theorem stepRepair_of_find_none (env : PipelineEnv) (vp vd vid : String) (s : PState)
    (h : find_audio_file vd s.fs = none) :
    stepRepair env vp vd vid s = s := by
  unfold stepRepair
  split
  · rw [h]
  · rfl

theorem stepRepair_of_audio_some (env : PipelineEnv) (vp vd vid : String) (s : PState)
    (a : String) (h : s.record.audio_file = some a) :
    stepRepair env vp vd vid s = s := by
  unfold stepRepair
  rw [if_neg]
  simp [h]

theorem stepRepair_of_not_downloaded (env : PipelineEnv) (vp vd vid : String)
    (s : PState) (h : s.record.downloaded = false) :
    stepRepair env vp vd vid s = s := by
  unfold stepRepair
  rw [if_neg]
  simp [h]

theorem stepRepair_fires (env : PipelineEnv) (vp vd vid : String) (s : PState)
    (p : String) (h1 : s.record.downloaded = true) (h2 : s.record.audio_file = none)
    (h3 : find_audio_file vd s.fs = some p) :
    stepRepair env vp vd vid s =
      { record := repairedRecord env s p,
        vault := alistInsert s.vault vid (repairedRecord env s p),
        fs := save_vault s.fs vp (alistInsert s.vault vid (repairedRecord env s p)),
        tsIdx := s.tsIdx + 1, calls := s.calls } := by
  unfold stepRepair repairedRecord
  rw [if_pos ⟨h1, h2⟩, h3]

theorem stepRepair_facts (env : PipelineEnv) (vp vd vid : String) (s : PState) :
    (stepRepair env vp vd vid s).record.downloaded = s.record.downloaded ∧
    (stepRepair env vp vd vid s).record.transcribed = s.record.transcribed ∧
    (stepRepair env vp vd vid s).record.summarized = s.record.summarized ∧
    (stepRepair env vp vd vid s).record.transcript_file = s.record.transcript_file ∧
    (stepRepair env vp vd vid s).calls = s.calls := by
  unfold stepRepair
  split
  · split <;> simp
  · simp

theorem stepDownload_skip (env : PipelineEnv) (url vp vd vid : String) (s : PState)
    (h : s.record.downloaded = true) :
    stepDownload env url vp vd vid s = .ok s := by
  unfold stepDownload
  rw [if_pos h]

theorem stepDownload_err (env : PipelineEnv) (url vp vd vid : String) (s : PState)
    (e : String) (fs2 : FS) (h1 : s.record.downloaded = false)
    (h2 : download_video_to_dir url vd env.denv s.fs = (.error e, fs2)) :
    stepDownload env url vp vd vid s =
      .error ("下载失败: " ++ e,
        { s with fs := fs2,
                 calls := { s.calls with download := s.calls.download + 1 } }) := by
  unfold stepDownload
  rw [if_neg (by simp [h1]), h2]

theorem stepDownload_facts (env : PipelineEnv) (url vp vd vid : String) (s : PState) :
    (postOf (stepDownload env url vp vd vid s)).record.transcribed =
      s.record.transcribed ∧
    (postOf (stepDownload env url vp vd vid s)).record.summarized =
      s.record.summarized ∧
    (postOf (stepDownload env url vp vd vid s)).record.transcript_file =
      s.record.transcript_file ∧
    (postOf (stepDownload env url vp vd vid s)).calls.transcribe =
      s.calls.transcribe ∧
    (postOf (stepDownload env url vp vd vid s)).calls.summarize =
      s.calls.summarize ∧
    (s.record.downloaded = true →
      (postOf (stepDownload env url vp vd vid s)).record.downloaded = true) ∧
    (s.record.downloaded = true →
      (postOf (stepDownload env url vp vd vid s)).calls.download =
        s.calls.download) := by
  unfold stepDownload
  split
  · simp [postOf]
  · split <;> simp_all [postOf]

theorem stepTranscribe_skip (env : PipelineEnv) (vp vid : String) (s : PState)
    (h : s.record.transcribed = true) :
    stepTranscribe env vp vid s = .ok s := by
  unfold stepTranscribe
  rw [if_pos h]

theorem stepTranscribe_noAudio (env : PipelineEnv) (vp vid : String) (s : PState)
    (h1 : s.record.transcribed = false) (h2 : s.record.audio_file = none) :
    stepTranscribe env vp vid s = .error ("无法转录：未找到音频文件路径", s) := by
  unfold stepTranscribe
  rw [if_neg (by simp [h1]), h2]

theorem stepTranscribe_facts (env : PipelineEnv) (vp vid : String) (s : PState) :
    (postOf (stepTranscribe env vp vid s)).record.downloaded =
      s.record.downloaded ∧
    (postOf (stepTranscribe env vp vid s)).record.summarized =
      s.record.summarized ∧
    (postOf (stepTranscribe env vp vid s)).record.audio_file =
      s.record.audio_file ∧
    (postOf (stepTranscribe env vp vid s)).record.transcript_file =
      s.record.transcript_file ∧
    (postOf (stepTranscribe env vp vid s)).calls.download = s.calls.download ∧
    (postOf (stepTranscribe env vp vid s)).calls.summarize = s.calls.summarize ∧
    (s.record.transcribed = true →
      (postOf (stepTranscribe env vp vid s)).record.transcribed = true) ∧
    (s.record.transcribed = true →
      (postOf (stepTranscribe env vp vid s)).calls.transcribe =
        s.calls.transcribe) := by
  unfold stepTranscribe
  split
  · simp [postOf]
  · split
    · split <;> simp_all [postOf]
    · simp_all [postOf]

theorem stepSummarize_skip (env : PipelineEnv) (key prov : Option String)
    (vp vid : String) (s : PState) (h : s.record.summarized = true) :
    stepSummarize env key prov vp vid s = .ok s := by
  unfold stepSummarize
  rw [if_pos h]

theorem stepSummarize_noTranscript (env : PipelineEnv) (key prov : Option String)
    (vp vid : String) (s : PState) (h1 : s.record.summarized = false)
    (h2 : s.record.transcript_content = none) :
    stepSummarize env key prov vp vid s = .ok s := by
  unfold stepSummarize
  rw [if_neg (by simp [h1]), h2]

theorem stepSummarize_ok (env : PipelineEnv) (key prov : Option String)
    (vp vid : String) (s : PState) (t summary : String)
    (h1 : s.record.summarized = false) (h2 : s.record.transcript_content = some t)
    (h3 : summarize_transcript_content t key (providerOf prov) env.http =
      .ok summary) :
    stepSummarize env key prov vp vid s =
      .ok { record := summarizedRecord env s summary,
            vault := alistInsert s.vault vid (summarizedRecord env s summary),
            fs := save_vault s.fs vp
              (alistInsert s.vault vid (summarizedRecord env s summary)),
            tsIdx := s.tsIdx + 1,
            calls := { s.calls with summarize := s.calls.summarize + 1 } } := by
  unfold stepSummarize summarizedRecord
  simp [h1, h2, h3]

theorem stepSummarize_err (env : PipelineEnv) (key prov : Option String)
    (vp vid : String) (s : PState) (t e : String)
    (h1 : s.record.summarized = false) (h2 : s.record.transcript_content = some t)
    (h3 : summarize_transcript_content t key (providerOf prov) env.http =
      .error e) :
    stepSummarize env key prov vp vid s =
      .error ("总结失败: " ++ e,
        { s with calls := { s.calls with summarize := s.calls.summarize + 1 } }) := by
  unfold stepSummarize
  simp [h1, h2, h3]

theorem stepSummarize_facts (env : PipelineEnv) (key prov : Option String)
    (vp vid : String) (s : PState) :
    (postOf (stepSummarize env key prov vp vid s)).record.downloaded =
      s.record.downloaded ∧
    (postOf (stepSummarize env key prov vp vid s)).record.transcribed =
      s.record.transcribed ∧
    (postOf (stepSummarize env key prov vp vid s)).record.audio_file =
      s.record.audio_file ∧
    (postOf (stepSummarize env key prov vp vid s)).record.transcript_file =
      s.record.transcript_file ∧
    (postOf (stepSummarize env key prov vp vid s)).calls.download =
      s.calls.download ∧
    (postOf (stepSummarize env key prov vp vid s)).calls.transcribe =
      s.calls.transcribe ∧
    (s.record.summarized = true →
      (postOf (stepSummarize env key prov vp vid s)).record.summarized = true) ∧
    (s.record.summarized = true →
      (postOf (stepSummarize env key prov vp vid s)).calls.summarize =
        s.calls.summarize) := by
  unfold stepSummarize
  split
  · simp [postOf]
  · split
    · simp_all [postOf]
    · split <;> simp_all [postOf]

theorem download_vaultFiles (url vd : String) (denv : DownloadEnv) (fs : FS) :
    (download_video_to_dir url vd denv fs).2.vaultFiles = fs.vaultFiles := by
  simp only [download_video_to_dir]
  repeat first
  | rfl
  | split

theorem transcribe_vaultFiles (a : String) (tenv : TranscribeEnv) (fs : FS) :
    (transcribe_audio_file a tenv fs).2.vaultFiles = fs.vaultFiles := by
  simp only [transcribe_audio_file]
  repeat first
  | rfl
  | split

/-! ## Composition lemmas over a whole run -/

theorem stagesTail2_facts (env : PipelineEnv) (key prov : Option String)
    (vp vid : String) (s2 : PState) :
    (stagesTail2 env key prov vp vid s2).calls.download = s2.calls.download ∧
    (stagesTail2 env key prov vp vid s2).calls.transcribe = s2.calls.transcribe ∧
    (s2.record.summarized = true →
      (stagesTail2 env key prov vp vid s2).calls.summarize = s2.calls.summarize) ∧
    (∀ res, (stagesTail2 env key prov vp vid s2).result = .ok res →
      res.downloaded = s2.record.downloaded ∧
      res.transcribed = s2.record.transcribed ∧
      (s2.record.summarized = true → res.summarized = true) ∧
      res.transcript_file = s2.record.transcript_file) := by
  unfold stagesTail2
  have hS := stepSummarize_facts env key prov vp vid s2
  cases hs : stepSummarize env key prov vp vid s2 with
  | error q =>
    obtain ⟨e3, uerr⟩ := q
    rw [hs] at hS
    simp only [postOf] at hS
    obtain ⟨hSd, hSt, hSa, hSf, hScd, hSct, hSs, hScs⟩ := hS
    refine ⟨hScd, hSct, fun h => hScs h, ?_⟩
    intro res hres
    simp at hres
  | ok s3 =>
    rw [hs] at hS
    simp only [postOf] at hS
    obtain ⟨hSd, hSt, hSa, hSf, hScd, hSct, hSs, hScs⟩ := hS
    refine ⟨hScd, hSct, fun h => hScs h, ?_⟩
    intro res hres
    simp at hres
    subst hres
    exact ⟨hSd, hSt, fun h => hSs h, hSf⟩

theorem stagesTail1_facts (env : PipelineEnv) (key prov : Option String)
    (vp vid : String) (s1 : PState) :
    (stagesTail1 env key prov vp vid s1).calls.download = s1.calls.download ∧
    (s1.record.transcribed = true →
      (stagesTail1 env key prov vp vid s1).calls.transcribe = s1.calls.transcribe) ∧
    (s1.record.summarized = true →
      (stagesTail1 env key prov vp vid s1).calls.summarize = s1.calls.summarize) ∧
    (∀ res, (stagesTail1 env key prov vp vid s1).result = .ok res →
      res.downloaded = s1.record.downloaded ∧
      (s1.record.transcribed = true → res.transcribed = true) ∧
      (s1.record.summarized = true → res.summarized = true) ∧
      res.transcript_file = s1.record.transcript_file) := by
  unfold stagesTail1
  have hT := stepTranscribe_facts env vp vid s1
  cases ht : stepTranscribe env vp vid s1 with
  | error q =>
    obtain ⟨e2, terr⟩ := q
    rw [ht] at hT
    simp only [postOf] at hT
    obtain ⟨hTd, hTs, hTa, hTf, hTcd, hTcs, hTt, hTct⟩ := hT
    refine ⟨hTcd, fun h => hTct h, fun _ => hTcs, ?_⟩
    intro res hres
    simp at hres
  | ok s2 =>
    rw [ht] at hT
    simp only [postOf] at hT
    obtain ⟨hTd, hTs, hTa, hTf, hTcd, hTcs, hTt, hTct⟩ := hT
    obtain ⟨h2cd, h2ct, h2cs, h2res⟩ := stagesTail2_facts env key prov vp vid s2
    refine ⟨by rw [h2cd, hTcd], fun h => by rw [h2ct, hTct h],
      fun h => by rw [h2cs (by rw [hTs]; exact h), hTcs], ?_⟩
    intro res hres
    obtain ⟨hrd, hrt, hrs, hrf⟩ := h2res res hres
    refine ⟨by rw [hrd, hTd], fun h => by rw [hrt]; exact hTt h,
      fun h => hrs (by rw [hTs]; exact h), by rw [hrf, hTf]⟩

theorem runStages_facts (env : PipelineEnv) (url : String) (key prov : Option String)
    (vp vd vid : String) (s0 : PState) :
    ((s0.record.downloaded = true →
       (runStages env url key prov vp vd vid s0).calls.download = s0.calls.download) ∧
     (s0.record.transcribed = true →
       (runStages env url key prov vp vd vid s0).calls.transcribe =
         s0.calls.transcribe) ∧
     (s0.record.summarized = true →
       (runStages env url key prov vp vd vid s0).calls.summarize =
         s0.calls.summarize)) ∧
    (∀ res, (runStages env url key prov vp vd vid s0).result = .ok res →
      (s0.record.downloaded = true → res.downloaded = true) ∧
      (s0.record.transcribed = true → res.transcribed = true) ∧
      (s0.record.summarized = true → res.summarized = true) ∧
      res.transcript_file = s0.record.transcript_file) := by
  obtain ⟨hRd, hRt, hRs, hRf, hRc⟩ := stepRepair_facts env vp vd vid s0
  unfold runStages
  generalize hg : stepRepair env vp vd vid s0 = sR
  rw [hg] at hRd hRt hRs hRf hRc
  have hD := stepDownload_facts env url vp vd vid sR
  cases hd : stepDownload env url vp vd vid sR with
  | error p =>
    obtain ⟨e1, serr⟩ := p
    rw [hd] at hD
    simp only [postOf] at hD
    obtain ⟨hDt, hDs, hDf, hDct, hDcs, hDd, hDcd⟩ := hD
    refine ⟨⟨?_, ?_, ?_⟩, ?_⟩
    · intro h; simp [hDcd (by rw [hRd]; exact h), hRc]
    · intro h; simp [hDct, hRc]
    · intro h; simp [hDcs, hRc]
    · intro res hres; simp at hres
  | ok s1 =>
    rw [hd] at hD
    simp only [postOf] at hD
    obtain ⟨hDt, hDs, hDf, hDct, hDcs, hDd, hDcd⟩ := hD
    obtain ⟨h1cd, h1ct, h1cs, h1res⟩ := stagesTail1_facts env key prov vp vid s1
    refine ⟨⟨?_, ?_, ?_⟩, ?_⟩
    · intro h; rw [h1cd, hDcd (by rw [hRd]; exact h), hRc]
    · intro h; rw [h1ct (by rw [hDt, hRt]; exact h), hDct, hRc]
    · intro h; rw [h1cs (by rw [hDs, hRs]; exact h), hDcs, hRc]
    · intro res hres
      obtain ⟨hrd, hrt, hrs, hrf⟩ := h1res res hres
      refine ⟨?_, ?_, ?_, ?_⟩
      · intro h; rw [hrd]; exact hDd (by rw [hRd]; exact h)
      · intro h; exact hrt (by rw [hDt, hRt]; exact h)
      · intro h; exact hrs (by rw [hDs, hRs]; exact h)
      · rw [hrf, hDf, hRf]

theorem runStages_all_done (env : PipelineEnv) (url : String)
    (key prov : Option String) (vp vd vid : String) (s0 : PState) (a : String)
    (h1 : s0.record.downloaded = true) (h2 : s0.record.transcribed = true)
    (h3 : s0.record.summarized = true) (h4 : s0.record.audio_file = some a) :
    runStages env url key prov vp vd vid s0 = ⟨.ok s0.record, s0.fs, s0.calls⟩ := by
  unfold runStages stagesTail1 stagesTail2
  simp [stepRepair_of_audio_some env vp vd vid s0 a h4,
    stepDownload_skip env url vp vd vid s0 h1,
    stepTranscribe_skip env vp vid s0 h2,
    stepSummarize_skip env key prov vp vid s0 h3]

/-! ## The persisted audio path after a repair -/

theorem stepTranscribe_stored (env : PipelineEnv) (vp vid p : String) (s : PState)
    (ha : s.record.audio_file = some p) (hd2 : s.record.downloaded = true)
    (hst : ∃ rr, storedRecord s.fs vp vid = some rr ∧ rr.audio_file = some p ∧
      rr.downloaded = true) :
    (∃ rr, storedRecord (postOf (stepTranscribe env vp vid s)).fs vp vid = some rr ∧
      rr.audio_file = some p ∧ rr.downloaded = true) ∧
    (postOf (stepTranscribe env vp vid s)).record.audio_file = some p ∧
    (postOf (stepTranscribe env vp vid s)).record.downloaded = true := by
  unfold stepTranscribe
  split
  · exact ⟨hst, ha, hd2⟩
  · split
    next audio_file heq =>
      rw [ha] at heq
      injection heq with heq2
      subst heq2
      split
      next tc fs2 heq3 =>
        constructor
        · refine ⟨transcribedRecord env s tc, ?_, ha, hd2⟩
          show storedRecord (save_vault fs2 vp
            (alistInsert s.vault vid (transcribedRecord env s tc))) vp vid =
            some (transcribedRecord env s tc)
          rw [storedRecord_save, alistLookup_insert]
        · exact ⟨ha, hd2⟩
      next e2 fs2 heq3 =>
        have hvf := transcribe_vaultFiles p env.tenv s.fs
        rw [heq3] at hvf
        constructor
        · show ∃ rr, storedRecord fs2 vp vid = some rr ∧ rr.audio_file = some p ∧
            rr.downloaded = true
          rw [storedRecord_congr fs2 s.fs vp vid hvf]
          exact hst
        · exact ⟨ha, hd2⟩
    next heq =>
      rw [ha] at heq
      simp at heq

theorem stepSummarize_stored (env : PipelineEnv) (key prov : Option String)
    (vp vid p : String) (s : PState)
    (ha : s.record.audio_file = some p) (hd2 : s.record.downloaded = true)
    (hst : ∃ rr, storedRecord s.fs vp vid = some rr ∧ rr.audio_file = some p ∧
      rr.downloaded = true) :
    (∃ rr, storedRecord (postOf (stepSummarize env key prov vp vid s)).fs vp vid =
      some rr ∧ rr.audio_file = some p ∧ rr.downloaded = true) ∧
    (postOf (stepSummarize env key prov vp vid s)).record.audio_file = some p ∧
    (postOf (stepSummarize env key prov vp vid s)).record.downloaded = true := by
  unfold stepSummarize
  split
  · exact ⟨hst, ha, hd2⟩
  · split
    · exact ⟨hst, ha, hd2⟩
    · split
      next sum heq3 =>
        constructor
        · refine ⟨summarizedRecord env s sum, ?_, ha, hd2⟩
          show storedRecord (save_vault s.fs vp
            (alistInsert s.vault vid (summarizedRecord env s sum))) vp vid =
            some (summarizedRecord env s sum)
          rw [storedRecord_save, alistLookup_insert]
        · exact ⟨ha, hd2⟩
      next e3 heq3 =>
        exact ⟨hst, ha, hd2⟩

theorem stagesTail2_stored (env : PipelineEnv) (key prov : Option String)
    (vp vid p : String) (s2 : PState)
    (ha : s2.record.audio_file = some p) (hd2 : s2.record.downloaded = true)
    (hst : ∃ rr, storedRecord s2.fs vp vid = some rr ∧ rr.audio_file = some p ∧
      rr.downloaded = true) :
    ∃ rr, storedRecord (stagesTail2 env key prov vp vid s2).fs vp vid = some rr ∧
      rr.audio_file = some p ∧ rr.downloaded = true := by
  unfold stagesTail2
  have hS := stepSummarize_stored env key prov vp vid p s2 ha hd2 hst
  cases hs : stepSummarize env key prov vp vid s2 with
  | error q =>
    obtain ⟨e3, uerr⟩ := q
    rw [hs] at hS
    simp only [postOf] at hS
    exact hS.1
  | ok s3 =>
    rw [hs] at hS
    simp only [postOf] at hS
    exact hS.1

theorem stagesTail1_stored (env : PipelineEnv) (key prov : Option String)
    (vp vid p : String) (s1 : PState)
    (ha : s1.record.audio_file = some p) (hd2 : s1.record.downloaded = true)
    (hst : ∃ rr, storedRecord s1.fs vp vid = some rr ∧ rr.audio_file = some p ∧
      rr.downloaded = true) :
    ∃ rr, storedRecord (stagesTail1 env key prov vp vid s1).fs vp vid = some rr ∧
      rr.audio_file = some p ∧ rr.downloaded = true := by
  unfold stagesTail1
  have hT := stepTranscribe_stored env vp vid p s1 ha hd2 hst
  cases ht : stepTranscribe env vp vid s1 with
  | error q =>
    obtain ⟨e2, terr⟩ := q
    rw [ht] at hT
    simp only [postOf] at hT
    exact hT.1
  | ok s2 =>
    rw [ht] at hT
    simp only [postOf] at hT
    exact stagesTail2_stored env key prov vp vid p s2 hT.2.1 hT.2.2 hT.1

theorem runStages_stored (env : PipelineEnv) (url : String) (key prov : Option String)
    (vp vd vid : String) (s0 : PState) (p : String)
    (hd0 : s0.record.downloaded = true) (ha0 : s0.record.audio_file = none)
    (hfind : find_audio_file vd s0.fs = some p) :
    ∃ rr, storedRecord (runStages env url key prov vp vd vid s0).fs vp vid =
      some rr ∧ rr.audio_file = some p ∧ rr.downloaded = true := by
  unfold runStages
  rw [stepRepair_fires env vp vd vid s0 p hd0 ha0 hfind]
  rw [stepDownload_skip env url vp vd vid
    { record := repairedRecord env s0 p,
      vault := alistInsert s0.vault vid (repairedRecord env s0 p),
      fs := save_vault s0.fs vp (alistInsert s0.vault vid (repairedRecord env s0 p)),
      tsIdx := s0.tsIdx + 1, calls := s0.calls }
    (show (repairedRecord env s0 p).downloaded = true from hd0)]
  refine stagesTail1_stored env key prov vp vid p _
    (show (repairedRecord env s0 p).audio_file = some p from rfl)
    (show (repairedRecord env s0 p).downloaded = true from hd0)
    ⟨repairedRecord env s0 p, ?_, rfl, hd0⟩
  show storedRecord (save_vault s0.fs vp
    (alistInsert s0.vault vid (repairedRecord env s0 p))) vp vid =
    some (repairedRecord env s0 p)
  rw [storedRecord_save, alistLookup_insert]

/-! ## Flag monotonicity, on the in-memory record and the stored one -/

/-- Record `r2` keeps every stage flag that `r0` already has. -/
def flagsLe (r0 r2 : VideoRecord) : Prop :=
  (r0.downloaded = true → r2.downloaded = true) ∧
  (r0.transcribed = true → r2.transcribed = true) ∧
  (r0.summarized = true → r2.summarized = true)

theorem flagsLe_refl (r : VideoRecord) : flagsLe r r := ⟨id, id, id⟩

theorem stepRepair_inv (env : PipelineEnv) (vp vd vid : String) (s : PState)
    (r0 : VideoRecord) (hrec : flagsLe r0 s.record)
    (hst : ∀ r2, storedRecord s.fs vp vid = some r2 → flagsLe r0 r2) :
    flagsLe r0 (stepRepair env vp vd vid s).record ∧
    ∀ r2, storedRecord (stepRepair env vp vd vid s).fs vp vid = some r2 →
      flagsLe r0 r2 := by
  unfold stepRepair
  split
  · split
    next p heq =>
      refine ⟨hrec, ?_⟩
      intro r2 h
      simp only [storedRecord_save, alistLookup_insert, Option.some.injEq] at h
      subst h
      exact hrec
    next heq => exact ⟨hrec, hst⟩
  · exact ⟨hrec, hst⟩

theorem stepDownload_inv (env : PipelineEnv) (url vp vd vid : String) (s : PState)
    (r0 : VideoRecord) (hrec : flagsLe r0 s.record)
    (hst : ∀ r2, storedRecord s.fs vp vid = some r2 → flagsLe r0 r2) :
    flagsLe r0 (postOf (stepDownload env url vp vd vid s)).record ∧
    ∀ r2, storedRecord (postOf (stepDownload env url vp vd vid s)).fs vp vid =
      some r2 → flagsLe r0 r2 := by
  unfold stepDownload
  split
  · exact ⟨hrec, hst⟩
  · split
    next af title fs2 heq =>
      constructor
      · exact ⟨fun _ => rfl, hrec.2.1, hrec.2.2⟩
      · intro r2 h
        simp only [postOf, storedRecord_save, alistLookup_insert,
          Option.some.injEq] at h
        subst h
        exact ⟨fun _ => rfl, hrec.2.1, hrec.2.2⟩
    next e fs2 heq =>
      constructor
      · exact hrec
      · intro r2 h
        have hvf := download_vaultFiles url vd env.denv s.fs
        rw [heq] at hvf
        simp only [postOf] at h
        rw [storedRecord_congr fs2 s.fs vp vid hvf] at h
        exact hst r2 h

theorem stepTranscribe_inv (env : PipelineEnv) (vp vid : String) (s : PState)
    (r0 : VideoRecord) (hrec : flagsLe r0 s.record)
    (hst : ∀ r2, storedRecord s.fs vp vid = some r2 → flagsLe r0 r2) :
    flagsLe r0 (postOf (stepTranscribe env vp vid s)).record ∧
    ∀ r2, storedRecord (postOf (stepTranscribe env vp vid s)).fs vp vid =
      some r2 → flagsLe r0 r2 := by
  unfold stepTranscribe
  split
  · exact ⟨hrec, hst⟩
  · split
    next af heq =>
      split
      next tc fs2 heq2 =>
        constructor
        · exact ⟨hrec.1, fun _ => rfl, hrec.2.2⟩
        · intro r2 h
          simp only [postOf, storedRecord_save, alistLookup_insert,
            Option.some.injEq] at h
          subst h
          exact ⟨hrec.1, fun _ => rfl, hrec.2.2⟩
      next e fs2 heq2 =>
        constructor
        · exact hrec
        · intro r2 h
          have hvf := transcribe_vaultFiles af env.tenv s.fs
          rw [heq2] at hvf
          simp only [postOf] at h
          rw [storedRecord_congr fs2 s.fs vp vid hvf] at h
          exact hst r2 h
    next heq => exact ⟨hrec, hst⟩

theorem stepSummarize_inv (env : PipelineEnv) (key prov : Option String)
    (vp vid : String) (s : PState) (r0 : VideoRecord) (hrec : flagsLe r0 s.record)
    (hst : ∀ r2, storedRecord s.fs vp vid = some r2 → flagsLe r0 r2) :
    flagsLe r0 (postOf (stepSummarize env key prov vp vid s)).record ∧
    ∀ r2, storedRecord (postOf (stepSummarize env key prov vp vid s)).fs vp vid =
      some r2 → flagsLe r0 r2 := by
  unfold stepSummarize
  split
  · exact ⟨hrec, hst⟩
  · split
    · exact ⟨hrec, hst⟩
    · split
      next sum heq2 =>
        constructor
        · exact ⟨hrec.1, hrec.2.1, fun _ => rfl⟩
        · intro r2 h
          simp only [postOf, storedRecord_save, alistLookup_insert,
            Option.some.injEq] at h
          subst h
          exact ⟨hrec.1, hrec.2.1, fun _ => rfl⟩
      next e heq2 => exact ⟨hrec, hst⟩

theorem stagesTail2_inv (env : PipelineEnv) (key prov : Option String)
    (vp vid : String) (s2 : PState) (r0 : VideoRecord)
    (hrec : flagsLe r0 s2.record)
    (hst : ∀ r2, storedRecord s2.fs vp vid = some r2 → flagsLe r0 r2) :
    (∀ r2, storedRecord (stagesTail2 env key prov vp vid s2).fs vp vid = some r2 →
      flagsLe r0 r2) ∧
    (∀ res, (stagesTail2 env key prov vp vid s2).result = .ok res →
      flagsLe r0 res) := by
  unfold stagesTail2
  have hS := stepSummarize_inv env key prov vp vid s2 r0 hrec hst
  cases hs : stepSummarize env key prov vp vid s2 with
  | error q =>
    obtain ⟨e, serr⟩ := q
    rw [hs] at hS
    simp only [postOf] at hS
    refine ⟨fun r2 h => hS.2 r2 h, ?_⟩
    intro res hres
    simp at hres
  | ok s3 =>
    rw [hs] at hS
    simp only [postOf] at hS
    refine ⟨fun r2 h => hS.2 r2 h, ?_⟩
    intro res hres
    simp at hres
    subst hres
    exact hS.1

theorem stagesTail1_inv (env : PipelineEnv) (key prov : Option String)
    (vp vid : String) (s1 : PState) (r0 : VideoRecord)
    (hrec : flagsLe r0 s1.record)
    (hst : ∀ r2, storedRecord s1.fs vp vid = some r2 → flagsLe r0 r2) :
    (∀ r2, storedRecord (stagesTail1 env key prov vp vid s1).fs vp vid = some r2 →
      flagsLe r0 r2) ∧
    (∀ res, (stagesTail1 env key prov vp vid s1).result = .ok res →
      flagsLe r0 res) := by
  unfold stagesTail1
  have hT := stepTranscribe_inv env vp vid s1 r0 hrec hst
  cases ht : stepTranscribe env vp vid s1 with
  | error q =>
    obtain ⟨e, terr⟩ := q
    rw [ht] at hT
    simp only [postOf] at hT
    refine ⟨fun r2 h => hT.2 r2 h, ?_⟩
    intro res hres
    simp at hres
  | ok s2 =>
    rw [ht] at hT
    simp only [postOf] at hT
    exact stagesTail2_inv env key prov vp vid s2 r0 hT.1 hT.2

theorem runStages_inv (env : PipelineEnv) (url : String) (key prov : Option String)
    (vp vd vid : String) (s0 : PState) (r0 : VideoRecord)
    (hrec : flagsLe r0 s0.record)
    (hst : ∀ r2, storedRecord s0.fs vp vid = some r2 → flagsLe r0 r2) :
    (∀ r2, storedRecord (runStages env url key prov vp vd vid s0).fs vp vid =
      some r2 → flagsLe r0 r2) ∧
    (∀ res, (runStages env url key prov vp vd vid s0).result = .ok res →
      flagsLe r0 res) := by
  unfold runStages
  have hR := stepRepair_inv env vp vd vid s0 r0 hrec hst
  generalize hg : stepRepair env vp vd vid s0 = sR
  rw [hg] at hR
  have hD := stepDownload_inv env url vp vd vid sR r0 hR.1 hR.2
  cases hd : stepDownload env url vp vd vid sR with
  | error p =>
    obtain ⟨e, serr⟩ := p
    rw [hd] at hD
    simp only [postOf] at hD
    refine ⟨fun r2 h => hD.2 r2 h, ?_⟩
    intro res hres
    simp at hres
  | ok s1 =>
    rw [hd] at hD
    simp only [postOf] at hD
    exact stagesTail1_inv env key prov vp vid s1 r0 hD.1 hD.2

theorem pipeline_unfold (url : String) (bp key prov : Option String)
    (env : PipelineEnv) (fs0 : FS) (v0 : Vault)
    (hload : load_vault fs0 (vaultPathOf bp env) = .ok v0) :
    process_video_pipeline url bp key prov env fs0 =
      runStages env url key prov (vaultPathOf bp env)
        (get_video_dir_path (vaultPathOf bp env) (generate_video_id url))
        (generate_video_id url)
        ⟨(alistLookup v0 (generate_video_id url)).getD
            (freshRecord (generate_video_id url) url (env.ts 0)),
         v0,
         fs0.createDir (get_video_dir_path (vaultPathOf bp env) (generate_video_id url)),
         1, ⟨0, 0, 0⟩⟩ := by
  unfold process_video_pipeline
  simp only [hload]

/-! ## String facts used by the summary claims -/

theorem strData_append (a b : String) : (a ++ b).data = a.data ++ b.data := by
  cases a; cases b; rfl

theorem strLength_append (a b : String) : (a ++ b).length = a.length + b.length := by
  show (a ++ b).data.length = a.data.length + b.data.length
  rw [strData_append, List.length_append]

theorem ne_empty_of_length_pos (s : String) (h : 0 < s.length) : s ≠ "" := by
  intro he
  rw [he] at h
  simp [String.length] at h

/-- The local fallback summary is never empty. -/
theorem generate_simple_summary_ne_empty (t : String) :
    generate_simple_summary t ≠ "" := by
  simp only [generate_simple_summary]
  split
  · decide
  · apply ne_empty_of_length_pos
    rw [strLength_append, strLength_append, strLength_append, strLength_append]
    have h9 : ("📊 内容统计：共约" : String).length = 9 := by decide
    omega

/-- No-credentials case of the summarize adapter (lib.rs lines 416-418). -/
theorem summarize_no_key (t : String) (prov : ApiProvider) (http : HttpOutcome) :
    summarize_transcript_content t none prov http =
      .ok (generate_simple_summary t) := rfl

/-- Network-send-failure case of the summarize adapter (lib.rs lines 465-469). -/
theorem summarize_sendErr (t k e : String) (prov : ApiProvider) :
    summarize_transcript_content t (some k) prov (.sendErr e) =
      .ok (generate_simple_summary t) := rfl

/-- Non-success-status case of the summarize adapter (lib.rs line 462). -/
theorem summarize_badStatus (t k st : String) (prov : ApiProvider)
    (body : Except String ChatCompletionResponse) :
    summarize_transcript_content t (some k) prov (.resp false st body) =
      .error ("API请求失败，状态码: " ++ st) := rfl

/-- Malformed-body case of the summarize adapter (lib.rs line 459). -/
theorem summarize_badBody (t k st e : String) (prov : ApiProvider) :
    summarize_transcript_content t (some k) prov (.resp true st (.error e)) =
      .error ("解析API响应失败: " ++ e) := rfl

/-- Empty-choices case of the summarize adapter (lib.rs line 456). -/
theorem summarize_emptyChoices (t k st : String) (prov : ApiProvider) :
    summarize_transcript_content t (some k) prov (.resp true st (.ok ⟨[]⟩)) =
      .error "API返回了空的总结结果" := rfl

/-- Successful case of the summarize adapter (lib.rs lines 453-454). -/
theorem summarize_okChoice (t k st : String) (prov : ApiProvider)
    (choice : ChatChoice) (rest : List ChatChoice) :
    summarize_transcript_content t (some k) prov
        (.resp true st (.ok ⟨choice :: rest⟩)) =
      .ok choice.message.content := rfl

/-! ## Facts about the hex form of the identifier -/

/-- A lowercase hexadecimal digit. -/
def isLowerHexDigit (c : Char) : Bool :=
  (48 ≤ c.toNat && c.toNat ≤ 57) || (97 ≤ c.toNat && c.toNat ≤ 102)

theorem length_digestBytes (st : Hash8) : (digestBytes st).length = 32 := rfl

theorem length_flatten_byteHex (l : List Nat) :
    ((l.map byteHexChars).flatten).length = 2 * l.length := by
  induction l with
  | nil => simp
  | cons h t ih => simp [byteHexChars, ih]; omega

theorem sha256HexChars_length (msg : List Nat) : (sha256HexChars msg).length = 64 := by
  unfold sha256HexChars
  rw [length_flatten_byteHex, length_digestBytes]

theorem hexDigitChar_isHex : ∀ n < 16, isLowerHexDigit (hexDigitChar n) = true := by
  decide

theorem be32_all_lt (n : Nat) : ∀ b ∈ be32 n, b < 256 := by
  intro b hb
  simp [be32, w8] at hb
  rcases hb with hb | hb | hb | hb <;> subst hb <;> exact Nat.mod_lt _ (by omega)

theorem mem_digestBytes_lt (st : Hash8) : ∀ b ∈ digestBytes st, b < 256 := by
  intro b hb
  simp [digestBytes] at hb
  rcases hb with hb | hb | hb | hb | hb | hb | hb | hb <;> exact be32_all_lt _ _ hb

theorem byteHexChars_hex (b : Nat) (hb : b < 256) :
    ∀ c ∈ byteHexChars b, isLowerHexDigit c = true := by
  intro c hc
  have hs : b >>> 4 = b / 16 := by
    rw [Nat.shiftRight_eq_div_pow]
  simp [byteHexChars] at hc
  rcases hc with hc | hc <;> subst hc
  · exact hexDigitChar_isHex _ (by rw [hs]; omega)
  · exact hexDigitChar_isHex _ (by omega)

theorem sha256HexChars_hex (msg : List Nat) :
    ∀ c ∈ sha256HexChars msg, isLowerHexDigit c = true := by
  intro c hc
  unfold sha256HexChars at hc
  rw [List.mem_flatten] at hc
  obtain ⟨l2, hl2, hcl2⟩ := hc
  rw [List.mem_map] at hl2
  obtain ⟨b, hbmem, hbeq⟩ := hl2
  subst hbeq
  exact byteHexChars_hex b (mem_digestBytes_lt _ b hbmem) c hcl2

/-! ## Shapes of particular runs -/

theorem runStages_no_audio (env : PipelineEnv) (url : String) (key prov : Option String)
    (vp vd vid : String) (s0 : PState)
    (hdl : s0.record.downloaded = true) (htr : s0.record.transcribed = false)
    (haf : s0.record.audio_file = none) (hfind : find_audio_file vd s0.fs = none) :
    runStages env url key prov vp vd vid s0 =
      ⟨.error "无法转录：未找到音频文件路径", s0.fs, s0.calls⟩ := by
  unfold runStages
  rw [stepRepair_of_find_none env vp vd vid s0 hfind]
  rw [stepDownload_skip env url vp vd vid s0 hdl]
  show stagesTail1 env key prov vp vid s0 = _
  unfold stagesTail1
  rw [stepTranscribe_noAudio env vp vid s0 htr haf]

theorem runStages_download_err (env : PipelineEnv) (url : String)
    (key prov : Option String) (vp vd vid : String) (s0 : PState) (e : String)
    (fs2 : FS) (hdl : s0.record.downloaded = false)
    (hdown : download_video_to_dir url vd env.denv s0.fs = (.error e, fs2)) :
    runStages env url key prov vp vd vid s0 =
      ⟨.error ("下载失败: " ++ e), fs2,
       { s0.calls with download := s0.calls.download + 1 }⟩ := by
  unfold runStages
  rw [stepRepair_of_not_downloaded env vp vd vid s0 hdl]
  rw [stepDownload_err env url vp vd vid s0 e fs2 hdl hdown]

theorem runStages_summarize_ok (env : PipelineEnv) (url : String)
    (key prov : Option String) (vp vd vid : String) (s0 : PState) (a t sum : String)
    (hdl : s0.record.downloaded = true) (haf : s0.record.audio_file = some a)
    (htr : s0.record.transcribed = true)
    (htc : s0.record.transcript_content = some t)
    (hsm : s0.record.summarized = false)
    (hsum : summarize_transcript_content t key (providerOf prov) env.http = .ok sum) :
    runStages env url key prov vp vd vid s0 =
      ⟨.ok (summarizedRecord env s0 sum),
       save_vault s0.fs vp (alistInsert s0.vault vid (summarizedRecord env s0 sum)),
       { s0.calls with summarize := s0.calls.summarize + 1 }⟩ := by
  unfold runStages
  rw [stepRepair_of_audio_some env vp vd vid s0 a haf]
  rw [stepDownload_skip env url vp vd vid s0 hdl]
  show stagesTail1 env key prov vp vid s0 = _
  unfold stagesTail1
  rw [stepTranscribe_skip env vp vid s0 htr]
  show stagesTail2 env key prov vp vid s0 = _
  unfold stagesTail2
  rw [stepSummarize_ok env key prov vp vid s0 t sum hsm htc hsum]

theorem runStages_summarize_err (env : PipelineEnv) (url : String)
    (key prov : Option String) (vp vd vid : String) (s0 : PState) (a t e : String)
    (hdl : s0.record.downloaded = true) (haf : s0.record.audio_file = some a)
    (htr : s0.record.transcribed = true)
    (htc : s0.record.transcript_content = some t)
    (hsm : s0.record.summarized = false)
    (hsum : summarize_transcript_content t key (providerOf prov) env.http =
      .error e) :
    runStages env url key prov vp vd vid s0 =
      ⟨.error ("总结失败: " ++ e), s0.fs,
       { s0.calls with summarize := s0.calls.summarize + 1 }⟩ := by
  unfold runStages
  rw [stepRepair_of_audio_some env vp vd vid s0 a haf]
  rw [stepDownload_skip env url vp vd vid s0 hdl]
  show stagesTail1 env key prov vp vid s0 = _
  unfold stagesTail1
  rw [stepTranscribe_skip env vp vid s0 htr]
  show stagesTail2 env key prov vp vid s0 = _
  unfold stagesTail2
  rw [stepSummarize_err env key prov vp vid s0 t e hsm htc hsum]

/-! ## The claims -/

/-- C3: persistence round-trip — saving any Vault to a vault root and
loading from that root returns the same Vault, `load(save(v)) = v`,
including the empty Vault; a well-formed association (unique keys) is
preserved verbatim. -/
theorem claim_vault_round_trip :
    ∀ (fs : FS) (vault_path : String) (v : Vault),
      load_vault (save_vault fs vault_path v) vault_path = .ok v := by
  intro fs vault_path v
  exact load_save_vault fs vault_path v

/-- C8: identity derivation is a pure total function of the URL — the
id is exactly the first 16 characters of the lowercase hexadecimal
SHA-256 digest of the URL's UTF-8 bytes (the hash embedding is
validated against the FIPS test vectors above); it always has length 16
and consists of hex digits only. -/
theorem claim_video_id_hash_prefix :
    ∀ url : String,
      generate_video_id url =
        String.mk ((sha256HexChars (utf8Bytes url)).take 16) ∧
      (generate_video_id url).length = 16 ∧
      (generate_video_id url).data.all isLowerHexDigit = true := by
  intro url
  refine ⟨rfl, ?_, ?_⟩
  · show ((sha256HexChars (utf8Bytes url)).take 16).length = 16
    rw [List.length_take, sha256HexChars_length]
    decide
  · rw [List.all_eq_true]
    intro c hc
    exact sha256HexChars_hex (utf8Bytes url) c (List.mem_of_mem_take hc)

/-- C2: idempotent resume — a stage whose flag is already set is never
re-invoked (its adapter call count stays zero), and a record with all
three flags set and a populated audio path is returned unchanged with
zero adapter invocations. -/
theorem claim_idempotent_resume (url : String) (bp key prov : Option String)
    (env : PipelineEnv) (fs0 : FS) (v0 : Vault) (r : VideoRecord) (a : String)
    (hload : load_vault fs0 (vaultPathOf bp env) = .ok v0)
    (hrec : alistLookup v0 (generate_video_id url) = some r) :
    ((r.downloaded = true →
        (process_video_pipeline url bp key prov env fs0).calls.download = 0) ∧
     (r.transcribed = true →
        (process_video_pipeline url bp key prov env fs0).calls.transcribe = 0) ∧
     (r.summarized = true →
        (process_video_pipeline url bp key prov env fs0).calls.summarize = 0)) ∧
    (r.downloaded = true → r.transcribed = true → r.summarized = true →
     r.audio_file = some a →
      process_video_pipeline url bp key prov env fs0 =
        ⟨.ok r,
         fs0.createDir
           (get_video_dir_path (vaultPathOf bp env) (generate_video_id url)),
         ⟨0, 0, 0⟩⟩) := by
  have hp := pipeline_unfold url bp key prov env fs0 v0 hload
  rw [hrec] at hp
  simp only [Option.getD_some] at hp
  refine ⟨⟨?_, ?_, ?_⟩, ?_⟩
  · intro h; rw [hp]
    exact (runStages_facts env url key prov _ _ _ _).1.1 h
  · intro h; rw [hp]
    exact (runStages_facts env url key prov _ _ _ _).1.2.1 h
  · intro h; rw [hp]
    exact (runStages_facts env url key prov _ _ _ _).1.2.2 h
  · intro h1 h2 h3 h4
    rw [hp]
    exact runStages_all_done env url key prov _ _ _ _ a h1 h2 h3 h4

/-- C4: failure isolation on Download failure — when the looked-up (or
fresh) record is not downloaded and the download adapter fails for any
reason, the run aborts with that stage's error, the transcribe and
summarize adapters are never invoked, and the vault store on disk is
unchanged (so no flag and no content field is persisted). -/
theorem claim_download_failure_isolation (url : String)
    (bp key prov : Option String) (env : PipelineEnv) (fs0 : FS) (v0 : Vault)
    (e : String) (fs2 : FS)
    (hload : load_vault fs0 (vaultPathOf bp env) = .ok v0)
    (hdl : ((alistLookup v0 (generate_video_id url)).getD
        (freshRecord (generate_video_id url) url (env.ts 0))).downloaded = false)
    (hdown : download_video_to_dir url
        (get_video_dir_path (vaultPathOf bp env) (generate_video_id url))
        env.denv
        (fs0.createDir
          (get_video_dir_path (vaultPathOf bp env) (generate_video_id url))) =
      (.error e, fs2)) :
    (process_video_pipeline url bp key prov env fs0).result =
      .error ("下载失败: " ++ e) ∧
    (process_video_pipeline url bp key prov env fs0).fs.vaultFiles =
      fs0.vaultFiles ∧
    (process_video_pipeline url bp key prov env fs0).calls.transcribe = 0 ∧
    (process_video_pipeline url bp key prov env fs0).calls.summarize = 0 ∧
    storedRecord (process_video_pipeline url bp key prov env fs0).fs
        (vaultPathOf bp env) (generate_video_id url) =
      storedRecord fs0 (vaultPathOf bp env) (generate_video_id url) := by
  have hp := pipeline_unfold url bp key prov env fs0 v0 hload
  rw [hp]
  rw [runStages_download_err env url key prov _ _ _ _ e fs2 hdl hdown]
  have hv1 := download_vaultFiles url
    (get_video_dir_path (vaultPathOf bp env) (generate_video_id url)) env.denv
    (fs0.createDir (get_video_dir_path (vaultPathOf bp env) (generate_video_id url)))
  rw [hdown] at hv1
  have hv2 := FS.createDir_vaultFiles fs0
    (get_video_dir_path (vaultPathOf bp env) (generate_video_id url))
  have hvf : fs2.vaultFiles = fs0.vaultFiles := by
    rw [← hv2]; exact hv1
  refine ⟨rfl, hvf, rfl, rfl, ?_⟩
  exact storedRecord_congr fs2 fs0 _ _ hvf

/-- C5: a record that is not transcribed and has no known audio path,
where the repair step cannot rediscover an audio file, makes the run
fail with the missing-audio-artifact error without invoking any
adapter, even though `downloaded` is true. -/
theorem claim_missing_audio_artifact (url : String) (bp key prov : Option String)
    (env : PipelineEnv) (fs0 : FS) (v0 : Vault) (r : VideoRecord)
    (hload : load_vault fs0 (vaultPathOf bp env) = .ok v0)
    (hrec : alistLookup v0 (generate_video_id url) = some r)
    (hdl : r.downloaded = true) (htr : r.transcribed = false)
    (haf : r.audio_file = none)
    (hfind : find_audio_file
        (get_video_dir_path (vaultPathOf bp env) (generate_video_id url))
        (fs0.createDir
          (get_video_dir_path (vaultPathOf bp env) (generate_video_id url))) =
      none) :
    (process_video_pipeline url bp key prov env fs0).result =
      .error "无法转录：未找到音频文件路径" ∧
    (process_video_pipeline url bp key prov env fs0).calls = ⟨0, 0, 0⟩ := by
  have hp := pipeline_unfold url bp key prov env fs0 v0 hload
  rw [hrec] at hp
  simp only [Option.getD_some] at hp
  rw [hp]
  rw [runStages_no_audio env url key prov _ _ _ _ hdl htr haf hfind]
  exact ⟨rfl, rfl⟩

/-- C6: repair path — for a record marked downloaded whose audio path
is absent, when the item directory holds a recognized audio file, the
run does not invoke the Download adapter and the vault persisted on
disk afterwards carries that file's path in `audio_file` (with
`downloaded` still true). -/
theorem claim_repair_path (url : String) (bp key prov : Option String)
    (env : PipelineEnv) (fs0 : FS) (v0 : Vault) (r : VideoRecord) (p : String)
    (hload : load_vault fs0 (vaultPathOf bp env) = .ok v0)
    (hrec : alistLookup v0 (generate_video_id url) = some r)
    (hdl : r.downloaded = true) (haf : r.audio_file = none)
    (hfind : find_audio_file
        (get_video_dir_path (vaultPathOf bp env) (generate_video_id url))
        (fs0.createDir
          (get_video_dir_path (vaultPathOf bp env) (generate_video_id url))) =
      some p) :
    (process_video_pipeline url bp key prov env fs0).calls.download = 0 ∧
    ∃ rr, storedRecord (process_video_pipeline url bp key prov env fs0).fs
        (vaultPathOf bp env) (generate_video_id url) = some rr ∧
      rr.audio_file = some p ∧ rr.downloaded = true := by
  have hp := pipeline_unfold url bp key prov env fs0 v0 hload
  rw [hrec] at hp
  simp only [Option.getD_some] at hp
  constructor
  · rw [hp]
    exact (runStages_facts env url key prov _ _ _ _).1.1 hdl
  · rw [hp]
    exact runStages_stored env url key prov _ _ _ _ p hdl haf hfind

/-- C7: with no credentials, the summarize adapter returns the
deterministic local summary computed by `generate_simple_summary`
(word count and first sentences with a configuration hint); that
summary is non-empty for every transcript, including the empty one, and
a run reaching the summarize stage completes with `summarized = true`
and that non-empty text as `summary_content`. -/
theorem claim_local_summary_no_credentials (url : String)
    (bp prov : Option String) (env : PipelineEnv) (fs0 : FS) (v0 : Vault)
    (r : VideoRecord) (a t : String)
    (hload : load_vault fs0 (vaultPathOf bp env) = .ok v0)
    (hrec : alistLookup v0 (generate_video_id url) = some r)
    (hdl : r.downloaded = true) (haf : r.audio_file = some a)
    (htr : r.transcribed = true) (htc : r.transcript_content = some t)
    (hsm : r.summarized = false) :
    summarize_transcript_content t none (providerOf prov) env.http =
      .ok (generate_simple_summary t) ∧
    generate_simple_summary t ≠ "" ∧
    (process_video_pipeline url bp none prov env fs0).result =
      .ok { r with summarized := true,
                   summary_content := some (generate_simple_summary t),
                   updated_at := env.ts 1 } := by
  refine ⟨summarize_no_key t (providerOf prov) env.http,
    generate_simple_summary_ne_empty t, ?_⟩
  have hp := pipeline_unfold url bp none prov env fs0 v0 hload
  rw [hrec] at hp
  simp only [Option.getD_some] at hp
  rw [hp]
  rw [runStages_summarize_ok env url none prov _ _ _ _ a t
    (generate_simple_summary t) hdl haf htr htc hsm
    (summarize_no_key t (providerOf prov) env.http)]
  rfl

/-- C9: stage-flag monotonicity — whatever the adapters do, and whether
the run succeeds or aborts at any stage, no flag is ever reset: any
flag that is true on the stored (or fresh) record before the run is
still true on the record the run returns (when it returns one) and on
the record persisted in the vault store after the run (when one is
stored); since a later run resumes from that stored record, no
reachable sequence of runs moves a flag from true to false. -/
theorem claim_stage_flags_monotone (url : String) (bp key prov : Option String)
    (env : PipelineEnv) (fs0 : FS) (v0 : Vault) (r0 : VideoRecord)
    (hload : load_vault fs0 (vaultPathOf bp env) = .ok v0)
    (hr0 : (alistLookup v0 (generate_video_id url)).getD
        (freshRecord (generate_video_id url) url (env.ts 0)) = r0) :
    (∀ res, (process_video_pipeline url bp key prov env fs0).result = .ok res →
      (r0.downloaded = true → res.downloaded = true) ∧
      (r0.transcribed = true → res.transcribed = true) ∧
      (r0.summarized = true → res.summarized = true)) ∧
    (∀ r2, storedRecord (process_video_pipeline url bp key prov env fs0).fs
        (vaultPathOf bp env) (generate_video_id url) = some r2 →
      (r0.downloaded = true → r2.downloaded = true) ∧
      (r0.transcribed = true → r2.transcribed = true) ∧
      (r0.summarized = true → r2.summarized = true)) := by
  subst hr0
  have hp := pipeline_unfold url bp key prov env fs0 v0 hload
  have hst0 : ∀ r2, storedRecord
      (fs0.createDir
        (get_video_dir_path (vaultPathOf bp env) (generate_video_id url)))
      (vaultPathOf bp env) (generate_video_id url) = some r2 →
      flagsLe ((alistLookup v0 (generate_video_id url)).getD
        (freshRecord (generate_video_id url) url (env.ts 0))) r2 := by
    intro r2 h
    rw [storedRecord_congr _ fs0 _ _ (FS.createDir_vaultFiles fs0 _)] at h
    simp only [storedRecord, hload] at h
    rw [h]
    exact flagsLe_refl r2
  constructor
  · intro res hres
    rw [hp] at hres
    exact (runStages_inv env url key prov _ _ _ _ _ (flagsLe_refl _) hst0).2 res hres
  · intro r2 h
    rw [hp] at h
    exact (runStages_inv env url key prov _ _ _ _ _ (flagsLe_refl _) hst0).1 r2 h

/-- C10: the `transcript_file` field is dead state — a fresh record is
created with `transcript_file = none`, and no pipeline stage ever
assigns it: the returned record always carries the looked-up (or
fresh) record's `transcript_file` unchanged. -/
theorem claim_transcript_file_never_populated (url : String)
    (bp key prov : Option String) (env : PipelineEnv) (fs0 : FS) (v0 : Vault)
    (r0 : VideoRecord)
    (hload : load_vault fs0 (vaultPathOf bp env) = .ok v0)
    (hr0 : (alistLookup v0 (generate_video_id url)).getD
        (freshRecord (generate_video_id url) url (env.ts 0)) = r0) :
    (alistLookup v0 (generate_video_id url) = none → r0.transcript_file = none) ∧
    ∀ res, (process_video_pipeline url bp key prov env fs0).result = .ok res →
      res.transcript_file = r0.transcript_file := by
  subst hr0
  constructor
  · intro h; rw [h]; rfl
  · intro res hres
    have hp := pipeline_unfold url bp key prov env fs0 v0 hload
    rw [hp] at hres
    exact ((runStages_facts env url key prov _ _ _ _).2 res hres).2.2.2

/-- C1 as amended: the summarize adapter falls back to the local
summary only when no credentials are supplied or when the network send
itself fails; a response with a non-success status, an unparsable body,
or an empty choices list is returned as an error, and every such
adapter error aborts a pipeline run (whose earlier stages are complete)
during the Summarize stage, surfacing that error. -/
theorem claim_summarize_fallback_amended :
    (∀ t prov http, summarize_transcript_content t none prov http =
      .ok (generate_simple_summary t)) ∧
    (∀ t k e prov, summarize_transcript_content t (some k) prov (.sendErr e) =
      .ok (generate_simple_summary t)) ∧
    (∀ t k st prov body,
      summarize_transcript_content t (some k) prov (.resp false st body) =
        .error ("API请求失败，状态码: " ++ st)) ∧
    (∀ t k st e prov,
      summarize_transcript_content t (some k) prov (.resp true st (.error e)) =
        .error ("解析API响应失败: " ++ e)) ∧
    (∀ t k st prov,
      summarize_transcript_content t (some k) prov (.resp true st (.ok ⟨[]⟩)) =
        .error "API返回了空的总结结果") ∧
    (∀ (url : String) (bp prov : Option String) (k : String) (env : PipelineEnv)
       (fs0 : FS) (v0 : Vault) (r : VideoRecord) (a t e : String),
      load_vault fs0 (vaultPathOf bp env) = .ok v0 →
      alistLookup v0 (generate_video_id url) = some r →
      r.downloaded = true → r.audio_file = some a → r.transcribed = true →
      r.transcript_content = some t → r.summarized = false →
      summarize_transcript_content t (some k) (providerOf prov) env.http =
        .error e →
      (process_video_pipeline url bp (some k) prov env fs0).result =
        .error ("总结失败: " ++ e)) := by
  refine ⟨fun t prov http => rfl, fun t k e prov => rfl, fun t k st prov body => rfl,
    fun t k st e prov => rfl, fun t k st prov => rfl, ?_⟩
  intro url bp prov k env fs0 v0 r a t e hload hrec hdl haf htr htc hsm hsum
  have hp := pipeline_unfold url bp (some k) prov env fs0 v0 hload
  rw [hrec] at hp
  simp only [Option.getD_some] at hp
  rw [hp]
  rw [runStages_summarize_err env url (some k) prov _ _ _ _ a t e
    hdl haf htr htc hsm hsum]

/-! ## Concrete fixtures used by the witnesses and the counterexample -/

/-- A sample URL. -/
def witUrl : String := "https://example.com/v1"

/-- Its derived id. -/
def witVid : String := generate_video_id witUrl

/-- The vault root under the base path `/base`. -/
def witVp : String := "/base/video-transcriber-vault"

/-- The item directory for the sample URL. -/
def witVd : String := pathJoin witVp witVid

/-- The empty filesystem. -/
def fsEmpty : FS := ⟨[], []⟩

/-- A store holding exactly one record for the sample URL. -/
def fsWith (r : VideoRecord) : FS := save_vault fsEmpty witVp [(witVid, r)]

/-- A fully processed record. -/
def recAllDone : VideoRecord :=
  ⟨witVid, witUrl, some "T", true, true, true, some "/base/a.wav", none,
   some "hello world", some "sum", "0", "0"⟩

/-- A record downloaded but not transcribed, with no known audio path. -/
def recNoAudio : VideoRecord :=
  ⟨witVid, witUrl, some "T", true, false, false, none, none, none, none, "0", "0"⟩

/-- A fully processed record whose audio path was lost. -/
def recRepair : VideoRecord :=
  ⟨witVid, witUrl, some "T", true, true, true, none, none, some "x", some "s",
   "0", "0"⟩

/-- A record transcribed and awaiting summarization. -/
def recToSummarize : VideoRecord :=
  ⟨witVid, witUrl, some "T", true, true, false, some "/base/a.wav", none,
   some "hello world. bye.", none, "0", "0"⟩

/-- An environment whose external tools are never reached. -/
def envPlain : PipelineEnv :=
  ⟨none, "/tmp", fun _ => "9", ⟨.spawnErr "no", .spawnErr "no", .spawnErr "no", []⟩,
   ⟨.spawnErr "no", []⟩, .sendErr "net"⟩

/-- An environment whose summarization endpoint answers with a
non-success status. -/
def envBadStatus : PipelineEnv :=
  ⟨none, "/tmp", fun _ => "9", ⟨.spawnErr "no", .spawnErr "no", .spawnErr "no", []⟩,
   ⟨.spawnErr "no", []⟩, .resp false "500" (.error "bad json")⟩

/-- An environment whose summarization endpoint answers successfully
but with an empty choices list. -/
def envEmptyChoices : PipelineEnv :=
  ⟨none, "/tmp", fun _ => "9", ⟨.spawnErr "no", .spawnErr "no", .spawnErr "no", []⟩,
   ⟨.spawnErr "no", []⟩, .resp true "200" (.ok ⟨[]⟩)⟩

/-- An environment where the downloader reports success but writes no
recognized audio file. -/
def envArtifactMissing : PipelineEnv :=
  ⟨none, "/tmp", fun _ => "9",
   ⟨.ran true "" "", .ran true "Title\n" "", .ran true "out" "err", []⟩,
   ⟨.spawnErr "no", []⟩, .sendErr "net"⟩

/-- An environment where download and transcription both succeed. -/
def envFullRun : PipelineEnv :=
  ⟨none, "/tmp", fun _ => "9",
   ⟨.ran true "" "", .ran true "Title" "", .ran true "" "", [⟨"a.wav", .ok ""⟩]⟩,
   ⟨.ran true "" "", [⟨"a.txt", .ok "hi"⟩]⟩, .sendErr "net"⟩

/-- The filesystem state after the failed download of the
artifact-missing scenario. -/
def fs4base : FS := (FS.createDir fsEmpty witVd).addEntries witVd []

/-- The artifact-missing diagnostic produced there. -/
def e4msg : String :=
  "下载似乎成功但未找到音频文件。\n目录: " ++ witVd ++ "\n目录内容: " ++
    listingStr (list_directory_contents witVd fs4base) ++
    "\n\nyt-dlp输出:\nSTDOUT: " ++ strTrim "out" ++ "\nSTDERR: " ++ strTrim "err"

/-- The record produced by a fully successful fresh run in
`envFullRun`. -/
def witFinalRec : VideoRecord :=
  ⟨witVid, witUrl, some "Title", true, true, true, some (pathJoin witVd "a.wav"),
   none, some "hi", some (generate_simple_summary "hi"), "9", "9"⟩

/-- C1 counterexample: the claim that the Summarize stage never
hard-fails is false — on a non-success HTTP status the adapter returns
an error instead of the local fallback, and a pipeline run in which the
earlier stages are complete aborts during Summarize. -/
theorem claim_summarize_fallback_cex :
    summarize_transcript_content "hello world" (some "sk") ApiProvider.OpenAI
        (.resp false "500" (.error "bad json")) =
      .error "API请求失败，状态码: 500" ∧
    (process_video_pipeline witUrl (some "/base") (some "sk") none envBadStatus
        (fsWith recToSummarize)).result =
      .error "总结失败: API请求失败，状态码: 500" := by
  constructor
  · decide
  · decide

/-- C1 witness for the amended claim, at the non-success-status and
empty-choices scenarios. -/
theorem claim_summarize_fallback_amended_witness :
    summarize_transcript_content "hello world. bye." (some "sk") (providerOf none)
        envBadStatus.http = .error ("API请求失败，状态码: " ++ "500") ∧
    (process_video_pipeline witUrl (some "/base") (some "sk") none envBadStatus
        (fsWith recToSummarize)).result =
      .error ("总结失败: " ++ ("API请求失败，状态码: " ++ "500")) ∧
    summarize_transcript_content "hello world. bye." (some "sk") (providerOf none)
        envEmptyChoices.http = .error "API返回了空的总结结果" ∧
    (process_video_pipeline witUrl (some "/base") (some "sk") none envEmptyChoices
        (fsWith recToSummarize)).result =
      .error ("总结失败: " ++ "API返回了空的总结结果") := by
  refine ⟨by decide, ?_, by decide, ?_⟩
  · exact claim_summarize_fallback_amended.2.2.2.2.2 witUrl (some "/base") none "sk"
      envBadStatus (fsWith recToSummarize) [(witVid, recToSummarize)] recToSummarize
      "/base/a.wav" "hello world. bye." ("API请求失败，状态码: " ++ "500")
      (by decide) (by decide) (by decide) (by decide) (by decide) (by decide)
      (by decide) (by decide)
  · exact claim_summarize_fallback_amended.2.2.2.2.2 witUrl (some "/base") none "sk"
      envEmptyChoices (fsWith recToSummarize) [(witVid, recToSummarize)]
      recToSummarize "/base/a.wav" "hello world. bye." "API返回了空的总结结果"
      (by decide) (by decide) (by decide) (by decide) (by decide) (by decide)
      (by decide) (by decide)

/-- C2 witness: a store with one fully processed record — the run
returns it unchanged with zero adapter invocations. -/
theorem claim_idempotent_resume_witness :
    load_vault (fsWith recAllDone) (vaultPathOf (some "/base") envPlain) =
      .ok [(witVid, recAllDone)] ∧
    recAllDone.downloaded = true ∧ recAllDone.transcribed = true ∧
    recAllDone.summarized = true ∧
    process_video_pipeline witUrl (some "/base") none none envPlain
        (fsWith recAllDone) =
      ⟨.ok recAllDone,
       (fsWith recAllDone).createDir
         (get_video_dir_path (vaultPathOf (some "/base") envPlain)
           (generate_video_id witUrl)),
       ⟨0, 0, 0⟩⟩ := by
  refine ⟨by decide, rfl, rfl, rfl, ?_⟩
  exact (claim_idempotent_resume witUrl (some "/base") none none envPlain
    (fsWith recAllDone) [(witVid, recAllDone)] recAllDone "/base/a.wav"
    (by decide) (by decide)).2 rfl rfl rfl rfl

/-- C4 witness: the downloader reports success but leaves no recognized
audio file — the run aborts with the artifact-missing diagnostic and
the store on disk is untouched. -/
theorem claim_download_failure_isolation_witness :
    download_video_to_dir witUrl
        (get_video_dir_path (vaultPathOf (some "/base") envArtifactMissing)
          (generate_video_id witUrl)) envArtifactMissing.denv
        (fsEmpty.createDir
          (get_video_dir_path (vaultPathOf (some "/base") envArtifactMissing)
            (generate_video_id witUrl))) = (.error e4msg, fs4base) ∧
    (process_video_pipeline witUrl (some "/base") none none envArtifactMissing
        fsEmpty).result = .error ("下载失败: " ++ e4msg) ∧
    (process_video_pipeline witUrl (some "/base") none none envArtifactMissing
        fsEmpty).fs.vaultFiles = fsEmpty.vaultFiles ∧
    (process_video_pipeline witUrl (some "/base") none none envArtifactMissing
        fsEmpty).calls.transcribe = 0 := by
  have h := claim_download_failure_isolation witUrl (some "/base") none none
    envArtifactMissing fsEmpty [] e4msg fs4base (by decide) (by decide) (by decide)
  exact ⟨by decide, h.1, h.2.1, h.2.2.1⟩

/-- C5 witness: a record downloaded but without audio path, in an item
directory holding no audio file — the run fails with the missing-audio
error and performs zero adapter invocations. -/
theorem claim_missing_audio_artifact_witness :
    recNoAudio.downloaded = true ∧ recNoAudio.audio_file = none ∧
    find_audio_file
        (get_video_dir_path (vaultPathOf (some "/base") envPlain)
          (generate_video_id witUrl))
        ((fsWith recNoAudio).createDir
          (get_video_dir_path (vaultPathOf (some "/base") envPlain)
            (generate_video_id witUrl))) = none ∧
    (process_video_pipeline witUrl (some "/base") none none envPlain
        (fsWith recNoAudio)).result = .error "无法转录：未找到音频文件路径" ∧
    (process_video_pipeline witUrl (some "/base") none none envPlain
        (fsWith recNoAudio)).calls = ⟨0, 0, 0⟩ := by
  have h := claim_missing_audio_artifact witUrl (some "/base") none none envPlain
    (fsWith recNoAudio) [(witVid, recNoAudio)] recNoAudio
    (by decide) (by decide) (by decide) (by decide) (by decide) (by decide)
  exact ⟨rfl, rfl, by decide, h.1, h.2⟩

/-- C6 witness: a record marked downloaded with a lost audio path and a
matching `a.wav` in the item directory — the run re-discovers the file
without re-downloading and persists its path. -/
theorem claim_repair_path_witness :
    recRepair.downloaded = true ∧ recRepair.audio_file = none ∧
    find_audio_file
        (get_video_dir_path (vaultPathOf (some "/base") envPlain)
          (generate_video_id witUrl))
        (((fsWith recRepair).addEntries witVd [⟨"a.wav", .ok ""⟩]).createDir
          (get_video_dir_path (vaultPathOf (some "/base") envPlain)
            (generate_video_id witUrl))) = some (pathJoin witVd "a.wav") ∧
    ((process_video_pipeline witUrl (some "/base") none none envPlain
        ((fsWith recRepair).addEntries witVd [⟨"a.wav", .ok ""⟩])).calls.download
      = 0 ∧
     ∃ rr, storedRecord
        (process_video_pipeline witUrl (some "/base") none none envPlain
          ((fsWith recRepair).addEntries witVd [⟨"a.wav", .ok ""⟩])).fs
        (vaultPathOf (some "/base") envPlain) (generate_video_id witUrl) =
        some rr ∧ rr.audio_file = some (pathJoin witVd "a.wav") ∧
        rr.downloaded = true) := by
  refine ⟨rfl, rfl, by decide, ?_⟩
  exact claim_repair_path witUrl (some "/base") none none envPlain
    ((fsWith recRepair).addEntries witVd [⟨"a.wav", .ok ""⟩])
    [(witVid, recRepair)] recRepair (pathJoin witVd "a.wav")
    (by decide) (by decide) (by decide) (by decide) (by decide)

/-- C7 witness: no credentials and a transcribed record — the run
completes with the deterministic non-empty local summary. -/
theorem claim_local_summary_no_credentials_witness :
    recToSummarize.summarized = false ∧
    recToSummarize.transcript_content = some "hello world. bye." ∧
    summarize_transcript_content "hello world. bye." none (providerOf none)
        envPlain.http = .ok (generate_simple_summary "hello world. bye.") ∧
    generate_simple_summary "hello world. bye." ≠ "" ∧
    (process_video_pipeline witUrl (some "/base") none none envPlain
        (fsWith recToSummarize)).result =
      .ok { recToSummarize with
              summarized := true,
              summary_content :=
                some (generate_simple_summary "hello world. bye."),
              updated_at := envPlain.ts 1 } := by
  have h := claim_local_summary_no_credentials witUrl (some "/base") none envPlain
    (fsWith recToSummarize) [(witVid, recToSummarize)] recToSummarize
    "/base/a.wav" "hello world. bye."
    (by decide) (by decide) (by decide) (by decide) (by decide) (by decide)
    (by decide)
  exact ⟨rfl, rfl, h.1, h.2.1, h.2.2⟩

/-- C9 witness: a fully processed stored record keeps its flags on the
returned record of a successful run, and a run that aborts in the
transcribe stage leaves the stored record's flags intact as well. -/
theorem claim_stage_flags_monotone_witness :
    (process_video_pipeline witUrl (some "/base") none none envPlain
        (fsWith recAllDone)).result = .ok recAllDone ∧
    ((recAllDone.downloaded = true → recAllDone.downloaded = true) ∧
     (recAllDone.transcribed = true → recAllDone.transcribed = true) ∧
     (recAllDone.summarized = true → recAllDone.summarized = true)) ∧
    storedRecord (process_video_pipeline witUrl (some "/base") none none envPlain
        (fsWith recNoAudio)).fs (vaultPathOf (some "/base") envPlain)
        (generate_video_id witUrl) = some recNoAudio ∧
    (recNoAudio.downloaded = true → recNoAudio.downloaded = true) := by
  refine ⟨by decide, ?_, by decide, ?_⟩
  · exact (claim_stage_flags_monotone witUrl (some "/base") none none envPlain
      (fsWith recAllDone) [(witVid, recAllDone)] recAllDone
      (by decide) (by decide)).1 recAllDone (by decide)
  · exact ((claim_stage_flags_monotone witUrl (some "/base") none none envPlain
      (fsWith recNoAudio) [(witVid, recNoAudio)] recNoAudio
      (by decide) (by decide)).2 recNoAudio (by decide)).1

/-- C10 witness: a fresh record processed end to end through
successful download, transcription and local summarization — its
`transcript_file` field is still `none` on the returned record. -/
theorem claim_transcript_file_never_populated_witness :
    load_vault fsEmpty (vaultPathOf (some "/base") envFullRun) = .ok [] ∧
    (process_video_pipeline witUrl (some "/base") none none envFullRun
        fsEmpty).result = .ok witFinalRec ∧
    witFinalRec.transcript_file =
      (freshRecord witVid witUrl "9").transcript_file := by
  refine ⟨by decide, by decide, ?_⟩
  exact (claim_transcript_file_never_populated witUrl (some "/base") none none
    envFullRun fsEmpty [] (freshRecord witVid witUrl "9")
    (by decide) (by decide)).2 witFinalRec (by decide)

end VideoTranscriber
